import Mathlib

/-!
# Verification of the genjutsu-db repository and migration engine

A shallow embedding, in Lean 4, of the core of `genjutsu-db` — a
schema-driven client that treats a remote row-oriented tabular store
(Google-Sheets-like, addressed by ranges such as `Tab!A1:D`) as a
lightweight multi-table database.  The embedding follows the TypeScript
source:

* `src/client.ts` — repository operations `create`, `findById`,
  `findMany`, `update`, `delete` (here `del`), plus `applyDefaults` and
  `readAllRaw`;
* `src/relations.ts` — `validateForeignKeys` and `loadRelated`;
* `src/migrations.ts` — `runMigrations` and `createMigrationContext`.

Modelling conventions:

* A scalar cell value is `Value` (string / number / boolean / null);
  JavaScript `undefined` is represented by `Option.none` wherever the
  source can observe it (absent record field, out-of-range cell).
* A parsed entity (`Record<string, unknown>`) is an association list
  `Rcd`; field access `e[k]` is `getF e k : Option Value`.
* The remote store, as seen by the repository layer, is a map from sheet
  name to the physical grid of that sheet (`Store`).  The ranges
  generated by `defineModel` are fixed: `readRange`/`clearRange` cover
  the data rows (row 2 onward) and `writeRange` starts at row 1, so a
  read of `readRange` is `grid.drop 1`, a clear of `clearRange` keeps
  only the header row, and an overwrite of `writeRange` with `values`
  replaces the first `values.length` rows.
* Each repository operation returns the store after the operation, the
  list of transport calls it issued (`SheetOp`), and either a result or
  the thrown `GError`.  All throws in the modelled operations occur
  before the first write, which the theorems make explicit rather than
  assume.
* `parseRow` / `toRow` / `validate` are components of the schema, as in
  `src/types.ts`; concrete fixtures instantiate them the way the
  repository's own tests do.
-/

set_option autoImplicit false

namespace Gdb

/-- A scalar cell / field value.  `null` is JavaScript `null`;
JavaScript `undefined` is modelled as `Option.none` at use sites. -/
inductive Value where
  | str (s : String)
  | num (n : Int)
  | vbool (b : Bool)
  | null
deriving DecidableEq, Repr

/-- JavaScript `String(v)` on a defined scalar value. -/
def valToString : Value → String
  | .str s => s
  | .num n => toString n
  | .vbool true => "true"
  | .vbool false => "false"
  | .null => "null"

/-- JavaScript `String(v)` where `v` may be `undefined`. -/
def optToString : Option Value → String
  | none => "undefined"
  | some v => valToString v

/-- JavaScript `Number(v)` restricted to integer outcomes; `none` models
`NaN` (and the non-integer outcomes no ledger row produced in this
development ever takes). -/
def jsToNumber : Value → Option Int
  | .num n => some n
  | .vbool true => some 1
  | .vbool false => some 0
  | .null => some 0
  | .str s =>
    let t := s.trim
    if t = "" then some 0 else t.toInt?

/-- `Number(x)` where `x` may be `undefined` (`Number(undefined)` is `NaN`). -/
def jsToNumberOpt : Option Value → Option Int
  | none => none
  | some v => jsToNumber v

/-- One item of a validation-error issue list (`src/errors.ts`,
`ValidationIssue`); `value` is optional because the offending value can
be `undefined`. -/
structure ValidationIssue where
  field : String
  message : String
  value : Option Value := none
deriving DecidableEq, Repr

/-- The closed error-kind taxonomy of `src/errors.ts`. -/
inductive ErrorKind where
  | AUTH_ERROR
  | PERMISSION_ERROR
  | RATE_LIMIT
  | NETWORK_ERROR
  | VALIDATION_ERROR
  | SCHEMA_ERROR
  | MIGRATION_ERROR
  | API_ERROR
deriving DecidableEq, Repr

/-- `GenjutsuError` as a value: kind, message, and the optional
structured context.  The underlying `cause` object is represented by its
message string. -/
structure GError where
  kind : ErrorKind
  message : String
  issues : List ValidationIssue := []
  migrationVersion : Option Int := none
  migrationName : Option String := none
  causeMsg : Option String := none
deriving DecidableEq, Repr

def validationError (message : String) (issues : List ValidationIssue) : GError :=
  { kind := .VALIDATION_ERROR, message := message, issues := issues }

def schemaError (message : String) : GError :=
  { kind := .SCHEMA_ERROR, message := message }

def migrationError (message : String) (version : Int) (name : String)
    (causeMsg : String) : GError :=
  { kind := .MIGRATION_ERROR, message := message,
    migrationVersion := some version, migrationName := some name,
    causeMsg := some causeMsg }

def apiError (message : String) : GError :=
  { kind := .API_ERROR, message := message }

/-- A physical row of a sheet: the list of its cells.  A cell read past
the end of the list is JavaScript `undefined`. -/
abbrev Row := List Value

/-- A parsed entity: an association list from column name to value.  An
absent key is an `undefined` field. -/
abbrev Rcd := List (String × Value)

/-- Field access `e[k]` (first binding wins, as for object keys). -/
def getF (r : Rcd) (k : String) : Option Value :=
  (r.find? (fun p => p.1 = k)).map (·.2)

/-- The spread merge `\x7b ...old, ...changes \x7d`: every field of
`old` is overwritten by the value `changes` holds for its key, and the
keys of `changes` absent from `old` are appended in order. -/
def mergeRcd (old changes : Rcd) : Rcd :=
  old.map (fun p => (p.1, (getF changes p.1).getD p.2)) ++
    changes.filter (fun p => getF old p.1 = none)

/-- A declared foreign-key edge (`src/types.ts`, `RelationDefinition`). -/
structure RelationDefinition where
  sourceField : String
  targetModel : String
  targetField : String
deriving DecidableEq, Repr

/-- A field declaration, reduced to what the repository layer reads:
the name and the optional default value (`defaultValue !== undefined`
is modelled by the outer `Option`). -/
structure FieldDefinition where
  name : String
  defaultValue : Option Value := none
deriving DecidableEq, Repr

/-- `SheetSchema<T>` (`src/types.ts`), with the entity type fixed to
`Rcd`.  The three range strings are replaced by the range *semantics*
`defineModel` generates for them (data rows at row 2 onward, writes from
row 1): see the range conventions in the header comment.  An absent
`relations` / `fields` array behaves exactly as an empty one in every
consumer, so both are plain lists here. -/
structure Schema where
  sheetName : String
  headers : List String
  primaryKey : Option String := none
  fields : List FieldDefinition := []
  relations : List RelationDefinition := []
  validate : Option (Rcd → Option GError) := none
  parseRow : Row → Nat → Option Rcd
  toRow : Rcd → Row

/-- The registered table set: model key to schema, in registration
order. -/
abbrev Schemas := List (String × Schema)

def lookupSchema (schemas : Schemas) (key : String) : Option Schema :=
  (schemas.find? (fun p => p.1 = key)).map (·.2)

/-- The remote store as the repository layer observes it: sheet name to
physical grid. -/
abbrev Store := List (String × List Row)

def Store.grid (store : Store) (name : String) : List Row :=
  ((store.find? (fun p => p.1 = name)).map (·.2)).getD []

def Store.setGrid (store : Store) (name : String) (g : List Row) : Store :=
  match store with
  | [] => [(name, g)]
  | p :: rest =>
    if p.1 = name then (name, g) :: rest else p :: Store.setGrid rest name g

/-- A transport call issued by a repository operation. -/
inductive SheetOp where
  | readData (sheet : String)
  | readFull (sheet : String)
  | batchGet (sheets : List String)
  | clearData (sheet : String)
  | write (sheet : String) (values : List Row) (append : Bool)
deriving DecidableEq, Repr

/-- The header row the client writes (`schema.headers` as one row of
string cells). -/
def headerRow (schema : Schema) : Row :=
  schema.headers.map Value.str

/-- The loop body of `readAllRaw`: parse every row with its index, keep
the non-null results. -/
def parseRows (schema : Schema) : Nat → List Row → List Rcd
  | _, [] => []
  | i, r :: rs =>
    match schema.parseRow r i with
    | some e => e :: parseRows schema (i + 1) rs
    | none => parseRows schema (i + 1) rs

/-- `readAllRaw` (`src/client.ts:279`): read the data range and parse
every returned row. -/
def readAllRaw (schema : Schema) (store : Store) : List Rcd :=
  parseRows schema 0 ((store.grid schema.sheetName).drop 1)

/-- `applyDefaults` (`src/client.ts:289`): fill every absent field that
has a declared default. -/
def applyDefaults (schema : Schema) (record : Rcd) : Rcd :=
  schema.fields.foldl
    (fun acc f =>
      match f.defaultValue with
      | some d => if getF acc f.name = none then acc ++ [(f.name, d)] else acc
      | none => acc)
    record

/-- The schema-validation step of `create`/`update`:
`if (schema.validate) schema.validate(entity)`. -/
def validStep (schema : Schema) (entity : Rcd) : Option GError :=
  match schema.validate with
  | none => none
  | some f => f entity

/-- The validation error raised for a dangling foreign-key reference
(`src/relations.ts:49-59`): the issue names the source field, the target
model and field, and the offending value. -/
def fkFailure (relation : RelationDefinition) (fv : Value) : GError :=
  validationError
    ("Foreign key validation failed: " ++ relation.sourceField ++
     " references " ++ relation.targetModel ++ "." ++
     relation.targetField ++ " but value \"" ++ valToString fv ++
     "\" not found")
    [{ field := relation.sourceField,
       message := "Referenced " ++ relation.targetModel ++ "." ++
         relation.targetField ++ " \"" ++ valToString fv ++ "\" not found",
       value := some fv }]

/-- Whether a relation is checked at all: on an update only the changed
foreign-key columns are validated (`src/relations.ts:26`). -/
def fkApplicable (changedFields : Option (List String)) (sourceField : String) : Bool :=
  match changedFields with
  | some cf => cf.contains sourceField
  | none => true

/-- The per-relation body of `validateForeignKeys`
(`src/relations.ts:24-61`).  Returns the transport reads it issued and
the error it raised, if any. -/
def fkCheckRel (schemas : Schemas) (store : Store) (record : Rcd)
    (changedFields : Option (List String)) (relation : RelationDefinition) :
    List SheetOp × Option GError :=
  if fkApplicable changedFields relation.sourceField = false then ([], none)
  else
    match getF record relation.sourceField with
    | none => ([], none)
    | some fv =>
      if fv = .null then ([], none)
      else
        match lookupSchema schemas relation.targetModel with
        | none => ([], none)
        | some targetSchema =>
          let rows := (store.grid targetSchema.sheetName).drop 1
          let targetPk := targetSchema.primaryKey.getD relation.targetField
          match targetSchema.headers.findIdx? (fun h => h = targetPk) with
          | none => ([.readData targetSchema.sheetName], none)
          | some pkIndex =>
            let found := rows.any (fun row =>
              match row.get? pkIndex with
              | none => false
              | some cell =>
                decide (cell ≠ .null) && (valToString cell == valToString fv))
            if found then ([.readData targetSchema.sheetName], none)
            else ([.readData targetSchema.sheetName], some (fkFailure relation fv))

/-- `validateForeignKeys` (`src/relations.ts:15`): check the relations
in declaration order, stopping at the first failure. -/
def validateForeignKeys (schemas : Schemas) (store : Store) (record : Rcd)
    (changedFields : Option (List String)) :
    List RelationDefinition → List SheetOp × Option GError
  | [] => ([], none)
  | relation :: rest =>
    match fkCheckRel schemas store record changedFields relation with
    | (tr, some e) => (tr, some e)
    | (tr, none) =>
      let r := validateForeignKeys schemas store record changedFields rest
      (tr ++ r.1, r.2)

/-- The outcome of a repository operation: the store after it ran, the
transport calls it issued, and the returned value or thrown error. -/
structure RepoOut (α : Type) where
  store : Store
  trace : List SheetOp
  result : Except GError α
deriving Repr

/-- The duplicate-primary-key rejection of `create`
(`src/client.ts:120-133`). -/
def dupCheck (pk : String) (existing : List Rcd) (entity : Rcd) : Option GError :=
  let pkValue := getF entity pk
  if existing.any (fun e => getF e pk = pkValue) then
    some (validationError ("Duplicate primary key: " ++ optToString pkValue)
      [{ field := pk, message := "Duplicate primary key", value := pkValue }])
  else none

/-- The duplicate-primary-key stage of `create`, with the read of the
full table it performs when a primary key is declared. -/
def dupStage (schema : Schema) (store : Store) (entity : Rcd) :
    List SheetOp × Option GError :=
  match schema.primaryKey with
  | none => ([], none)
  | some pk =>
    ([.readData schema.sheetName], dupCheck pk (readAllRaw schema store) entity)

/-- The FK-validation stage of `create`/`update`: skipped entirely under
`skipFkValidation`. -/
def fkStage (schemas : Schemas) (store : Store) (skipFkValidation : Bool)
    (record : Rcd) (changedFields : Option (List String))
    (relations : List RelationDefinition) : List SheetOp × Option GError :=
  if skipFkValidation then ([], none)
  else validateForeignKeys schemas store record changedFields relations

/-- `create` (`src/client.ts:111-152`): defaults, schema validation,
duplicate-key check, FK validation, header bootstrap, single-row
append. -/
def create (schemas : Schemas) (schema : Schema) (skipFkValidation : Bool)
    (record : Rcd) (store : Store) : RepoOut Rcd :=
  let entity := applyDefaults schema record
  match validStep schema entity with
  | some e => ⟨store, [], .error e⟩
  | none =>
    match dupStage schema store entity with
    | (tr₀, some e) => ⟨store, tr₀, .error e⟩
    | (tr₀, none) =>
      match fkStage schemas store skipFkValidation entity none schema.relations with
      | (tr₁, some e) => ⟨store, tr₀ ++ tr₁, .error e⟩
      | (tr₁, none) =>
        let rawRows := store.grid schema.sheetName
        let (store₁, tr₂) :=
          if rawRows.isEmpty then
            (store.setGrid schema.sheetName [headerRow schema],
             [SheetOp.readFull schema.sheetName,
              SheetOp.write schema.sheetName [headerRow schema] false])
          else (store, [SheetOp.readFull schema.sheetName])
        let g := store₁.grid schema.sheetName
        ⟨store₁.setGrid schema.sheetName (g ++ [schema.toRow entity]),
         tr₀ ++ tr₁ ++ tr₂ ++ [SheetOp.write schema.sheetName [schema.toRow entity] true],
         .ok entity⟩

/-- `findById` (`src/client.ts:154-161`). -/
def findById (schema : Schema) (id : Value) (store : Store) :
    RepoOut (Option Rcd) :=
  match schema.primaryKey with
  | none => ⟨store, [], .ok none⟩
  | some pk =>
    let records := readAllRaw schema store
    ⟨store, [.readData schema.sheetName],
     .ok (records.find? (fun r => getF r pk = some id))⟩

/-- `update` (`src/client.ts:175-214`): locate by primary key, merge,
re-validate, FK-check the changed fields, clear the data range and
rewrite header plus every record. -/
def update (schemas : Schemas) (schema : Schema) (skipFkValidation : Bool)
    (id : Value) (changes : Rcd) (store : Store) : RepoOut Rcd :=
  let records := readAllRaw schema store
  match schema.primaryKey with
  | none =>
    ⟨store, [.readData schema.sheetName],
     .error (validationError "Cannot update without a primary key" [])⟩
  | some pk =>
    match records.findIdx? (fun r => getF r pk = some id) with
    | none =>
      ⟨store, [.readData schema.sheetName],
       .error (validationError ("Record not found: " ++ valToString id)
         [{ field := pk, message := "Record not found", value := some id }])⟩
    | some index =>
      let merged := mergeRcd (records.getD index []) changes
      match validStep schema merged with
      | some e => ⟨store, [.readData schema.sheetName], .error e⟩
      | none =>
        match fkStage schemas store skipFkValidation merged
            (some (changes.map (·.1))) schema.relations with
        | (tr₁, some e) => ⟨store, .readData schema.sheetName :: tr₁, .error e⟩
        | (tr₁, none) =>
          let newRecords := records.set index merged
          let values := headerRow schema :: newRecords.map schema.toRow
          let g := store.grid schema.sheetName
          let cleared := g.take 1
          let rewritten := values ++ cleared.drop values.length
          ⟨store.setGrid schema.sheetName rewritten,
           .readData schema.sheetName :: tr₁ ++
             [SheetOp.clearData schema.sheetName,
              SheetOp.write schema.sheetName values false],
           .ok merged⟩

/-- `delete` (`src/client.ts:216-231`): silently a no-op without a
primary key; otherwise filter out the matching record and rewrite. -/
def del (schema : Schema) (id : Value) (store : Store) : RepoOut Unit :=
  match schema.primaryKey with
  | none => ⟨store, [], .ok ()⟩
  | some pk =>
    let records := readAllRaw schema store
    let filtered := records.filter (fun r => !decide (getF r pk = some id))
    let values := headerRow schema :: filtered.map schema.toRow
    let g := store.grid schema.sheetName
    let rewritten := values ++ (g.take 1).drop values.length
    ⟨store.setGrid schema.sheetName rewritten,
     [.readData schema.sheetName, .clearData schema.sheetName,
      .write schema.sheetName values false],
     .ok ()⟩

/-! ## Eager loading (`src/relations.ts:68-152`) -/

/-- A field value of an eager-loaded result record: either a scalar cell
value or an attached array of related records. -/
inductive EValue where
  | scalar (v : Value)
  | recs (rs : List Rcd)
deriving DecidableEq, Repr

/-- An eager-loaded result record. -/
abbrev ERcd := List (String × EValue)

def toERcd (r : Rcd) : ERcd := r.map (fun p => (p.1, EValue.scalar p.2))

def getEF (r : ERcd) (k : String) : Option EValue :=
  (r.find? (fun p => p.1 = k)).map (·.2)

/-- JavaScript property assignment `parent[k] = v`: overwrite the first
binding of `k` in place, or append a new binding. -/
def setEF : ERcd → String → EValue → ERcd
  | [], k, v => [(k, v)]
  | p :: rest, k, v =>
    if p.1 = k then (k, v) :: rest else p :: setEF rest k v

/-- JavaScript `String(x)` on an eager-loaded field value: an attached
array stringifies as its elements joined by commas, each plain object as
`[object Object]`. -/
def eValToString : EValue → String
  | .scalar v => valToString v
  | .recs rs => String.intercalate "," (rs.map (fun _ => "[object Object]"))

def eOptToString : Option EValue → String
  | none => "undefined"
  | some e => eValToString e

/-- `findRelationToModel` (`src/relations.ts:136-152`): the first
relation of the related schema whose target model is the registry key of
the primary schema (keys compared through the sheet name). -/
def findRelationToModel (schemas : Schemas) (relatedSchema targetSchema : Schema) :
    Option RelationDefinition :=
  match schemas.find? (fun p => p.2.sheetName = targetSchema.sheetName) with
  | none => none
  | some p => relatedSchema.relations.find? (fun r => r.targetModel = p.1)

/-- The array attached to one parent for one related table
(`src/relations.ts:118-127`): the related records whose relation-source
column stringifies to the same string as the parent's primary-key field
(read from the possibly already-enhanced parent), or an empty array when
the related schema declares no relation back to the primary model. -/
def attachValue (schemas : Schemas) (schema : Schema) (pk : String) (store : Store)
    (relatedSchema : Schema) (parent : ERcd) : EValue :=
  let rows := (store.grid relatedSchema.sheetName).drop 1
  let relatedRecords := parseRows relatedSchema 0 rows
  match findRelationToModel schemas relatedSchema schema with
  | some rel =>
    .recs (relatedRecords.filter (fun child =>
      optToString (getF child rel.sourceField) = eOptToString (getEF parent pk)))
  | none => .recs []

/-- The per-related-table attachment pass of `loadRelated`
(`src/relations.ts:100-128`): compute the related records of one
requested table and attach the matching ones to every parent. -/
def attachOne (schemas : Schemas) (schema : Schema) (pk : String) (store : Store)
    (parents : List ERcd) (relatedKey : String) : List ERcd :=
  match lookupSchema schemas relatedKey with
  | none => parents
  | some relatedSchema =>
    parents.map (fun parent =>
      setEF parent relatedKey (attachValue schemas schema pk store relatedSchema parent))

/-- `loadRelated` (`src/relations.ts:68-131`): one batched multi-range
read for every registered requested table, then one attachment pass per
requested table.  Returns the result records and the transport calls. -/
def loadRelated (schemas : Schemas) (schema : Schema) (includeKeys : List String)
    (records : List Rcd) (store : Store) : List ERcd × List SheetOp :=
  if includeKeys.isEmpty then (records.map toERcd, [])
  else
    let relatedSchemaKeys :=
      includeKeys.filter (fun k => (lookupSchema schemas k).isSome)
    let relatedRanges := relatedSchemaKeys.filterMap (fun k =>
      (lookupSchema schemas k).map (·.sheetName))
    if relatedRanges.isEmpty then (records.map toERcd, [])
    else
      let batchTrace := [SheetOp.batchGet relatedRanges]
      match schema.primaryKey with
      | none => (records.map toERcd, batchTrace)
      | some pk =>
        (relatedSchemaKeys.foldl (attachOne schemas schema pk store)
           (records.map toERcd),
         batchTrace)

/-! ## Migration engine (`src/migrations.ts`) -/

/-- The reserved ledger sheet name (`MIGRATIONS_SHEET`). -/
def MIGRATIONS_SHEET : String := "_genjutsu_migrations"

/-- One invocation of a migration-context structural operation, or a
throw by the migration procedure's own code (`fail`).  A procedure is a
sequence of these: the context operations return no data, so every
behaviour of an `up` procedure is a straight-line sequence. -/
inductive MigOp where
  | createSheet (name : String)
  | addColumn (sheet : String) (column : String) (afterIndex : Option Nat)
  | removeColumn (sheet : String) (columnIndex : Nat)
  | renameColumn (sheet : String) (columnIndex : Nat) (newName : String)
  | renameSheet (oldName : String) (newName : String)
  | fail (msg : String)
deriving DecidableEq, Repr

/-- A migration (`src/types.ts`, `Migration`). -/
structure Migration where
  version : Int
  name : String
  up : List MigOp
deriving DecidableEq, Repr

/-- One tab of the spreadsheet: its immutable numeric id, its current
title, and its grid of rows. -/
structure SheetTab where
  id : Int
  title : String
  grid : List Row
deriving DecidableEq, Repr

/-- The live spreadsheet: its tabs in order. -/
structure SpreadState where
  tabs : List SheetTab
deriving DecidableEq, Repr

/-- A structural request sent in a `batchUpdate` call. -/
inductive StructReq where
  | addSheetReq (title : String)
  | insertCols (sheetId : Int) (startIndex stopIndex : Nat)
  | updateHeaderCell (sheetId : Int) (columnIndex : Nat) (value : String)
  | deleteCols (sheetId : Int) (startIndex stopIndex : Nat)
  | renameTab (sheetId : Int) (newTitle : String)
deriving DecidableEq, Repr

/-- A network call made by the migration runner. -/
inductive NetCall where
  | metadata
  | structural (requests : List StructReq)
  | readLedger
  | appendLedger (row : Row)
deriving DecidableEq, Repr

/-- The metadata snapshot `sheetIdMap` is built from; title collisions
resolve to the last tab, as consecutive `Map.set` calls do. -/
abbrev Snap := List SheetTab

def snapResolve (snap : Snap) (title : String) : Option Int :=
  ((snap.reverse.find? (fun t => t.title = title)).map (·.id))

/-- The id the backing service assigns to a newly added sheet: fresh
with respect to every existing tab. -/
def freshId (st : SpreadState) : Int :=
  (st.tabs.map (·.id)).foldr max 0 + 1

def addTab (st : SpreadState) (title : String) : SpreadState :=
  ⟨st.tabs ++ [⟨freshId st, title, []⟩]⟩

/-- Apply a function to the grid-and-title of the tab with the given id. -/
def updateTab (st : SpreadState) (sheetId : Int) (f : SheetTab → SheetTab) :
    SpreadState :=
  ⟨st.tabs.map (fun t => if t.id = sheetId then f t else t)⟩

/-- Pad a row with empty (`null`) cells up to the given length. -/
def padTo (r : Row) (n : Nat) : Row :=
  r ++ List.replicate (n - r.length) Value.null

/-- Set one cell of a grid, materialising the row and cell if absent, as
an `updateCells` request does. -/
def setCell (g : List Row) (rowIndex colIndex : Nat) (v : Value) : List Row :=
  let g' := if g.length ≤ rowIndex then g ++ List.replicate (rowIndex + 1 - g.length) [] else g
  g'.mapIdx (fun i r => if i = rowIndex then (padTo r (colIndex + 1)).set colIndex v else r)

/-- Insert an empty column at the given index in every row that reaches
it (`insertDimension COLUMNS`). -/
def insertColAt (g : List Row) (idx : Nat) : List Row :=
  g.map (fun r => if idx ≤ r.length then r.take idx ++ Value.null :: r.drop idx else r)

/-- Delete the column at the given index (`deleteDimension COLUMNS`). -/
def deleteColAt (g : List Row) (idx : Nat) : List Row :=
  g.map (fun r => r.take idx ++ r.drop (idx + 1))

/-- The title-to-physical-id resolution of `createMigrationContext`
(`src/migrations.ts:164-170`): a lookup in the `sheetIdMap` snapshot,
throwing a schema error when absent. -/
def resolveSheetId (snap : Snap) (sheetName : String) : Except GError Int :=
  match snapResolve snap sheetName with
  | some id => .ok id
  | none => .error (schemaError ("Sheet \"" ++ sheetName ++ "\" not found in spreadsheet"))

/-- Execute one migration-context operation (`src/migrations.ts:172-268`)
against the live spreadsheet, resolving sheet names through the
snapshot.  Returns the new state and the issued calls, or the thrown
error. -/
def execOp (snap : Snap) (st : SpreadState) :
    MigOp → Except GError (SpreadState × List NetCall)
  | .createSheet name =>
    .ok (addTab st name, [.structural [.addSheetReq name]])
  | .addColumn sheet column afterIndex => do
    let sheetId ← resolveSheetId snap sheet
    let colIndex := afterIndex.getD 0
    let st' := updateTab st sheetId (fun t =>
      { t with grid := setCell (insertColAt t.grid colIndex) 0 colIndex (.str column) })
    .ok (st', [.structural [.insertCols sheetId colIndex (colIndex + 1),
                            .updateHeaderCell sheetId colIndex column]])
  | .removeColumn sheet columnIndex => do
    let sheetId ← resolveSheetId snap sheet
    let st' := updateTab st sheetId (fun t => { t with grid := deleteColAt t.grid columnIndex })
    .ok (st', [.structural [.deleteCols sheetId columnIndex (columnIndex + 1)]])
  | .renameColumn sheet columnIndex newName => do
    let sheetId ← resolveSheetId snap sheet
    let st' := updateTab st sheetId (fun t =>
      { t with grid := setCell t.grid 0 columnIndex (.str newName) })
    .ok (st', [.structural [.updateHeaderCell sheetId columnIndex newName]])
  | .renameSheet oldName newName => do
    let sheetId ← resolveSheetId snap oldName
    let st' := updateTab st sheetId (fun t => { t with title := newName })
    .ok (st', [.structural [.renameTab sheetId newName]])
  | .fail msg => .error { kind := .API_ERROR, message := msg }

/-- Run the operations of one procedure in order, stopping at the first
throw; the state reached so far and the calls made so far persist. -/
def execOps (snap : Snap) (st : SpreadState) :
    List MigOp → SpreadState × List NetCall × Option GError
  | [] => (st, [], none)
  | op :: rest =>
    match execOp snap st op with
    | .error e => (st, [], some e)
    | .ok (st', calls) =>
      let r := execOps snap st' rest
      (r.1, calls ++ r.2.1, r.2.2)

/-- Whether a procedure's execution throws — a property of the snapshot
and the operations alone, since no operation's success depends on the
live state. -/
def upError (snap : Snap) : List MigOp → Option GError
  | [] => none
  | op :: rest =>
    match op with
    | .createSheet _ => upError snap rest
    | .addColumn s _ _ | .removeColumn s _ | .renameColumn s _ _ =>
      match resolveSheetId snap s with
      | .error e => some e
      | .ok _ => upError snap rest
    | .renameSheet s _ =>
      match resolveSheetId snap s with
      | .error e => some e
      | .ok _ => upError snap rest
    | .fail msg => some { kind := .API_ERROR, message := msg }

/-- Whether an operation leaves the reserved ledger sheet alone: it does
not create it, rename it or to it, or target it with a column change. -/
def opSafe : MigOp → Bool
  | .createSheet n => n ≠ MIGRATIONS_SHEET
  | .addColumn s _ _ => s ≠ MIGRATIONS_SHEET
  | .removeColumn s _ => s ≠ MIGRATIONS_SHEET
  | .renameColumn s _ _ => s ≠ MIGRATIONS_SHEET
  | .renameSheet o n => o ≠ MIGRATIONS_SHEET && n ≠ MIGRATIONS_SHEET
  | .fail _ => true

/-- The rows currently stored in the reserved ledger sheet (of the first
tab carrying the reserved title). -/
def ledgerRows (st : SpreadState) : List Row :=
  (((st.tabs.find? (fun t => t.title = MIGRATIONS_SHEET)).map (·.grid)).getD [])

/-- The ledger rows appended during a run, extracted from its network
trace. -/
def ledgerAppends (trace : List NetCall) : List Row :=
  trace.filterMap (fun c =>
    match c with
    | .appendLedger row => some row
    | _ => none)

/-- Read the rows of the tab with the given title (a ranged value read;
the service rejects a range over a missing sheet). -/
def readTabRows (st : SpreadState) (title : String) : Except GError (List Row) :=
  match st.tabs.find? (fun t => t.title = title) with
  | some t => .ok t.grid
  | none => .error (apiError ("Unable to parse range: " ++ title))

/-- Append rows to the tab with the given title. -/
def appendTabRows (st : SpreadState) (title : String) (rows : List Row) :
    Except GError SpreadState :=
  match st.tabs.find? (fun t => t.title = title) with
  | some t => .ok (updateTab st t.id (fun tb => { tb with grid := tb.grid ++ rows }))
  | none => .error (apiError ("Unable to parse range: " ++ title))

/-- The ledger row recorded for a successful migration. -/
def migRow (m : Migration) (now : String) : Row :=
  [.num m.version, .str m.name, .str now]

/-- `migrationError` as constructed at `src/migrations.ts:138-143`. -/
def wrapMigErr (m : Migration) (e : GError) : GError :=
  migrationError
    ("Migration " ++ toString m.version ++ " (" ++ m.name ++ ") failed: " ++ e.message)
    m.version m.name e.message

/-- The outcome of a migration run: final spreadsheet, the versions
whose procedures were invoked (in invocation order), the network calls,
and the error that aborted the run, if any. -/
structure RunResult where
  state : SpreadState
  executed : List Int
  trace : List NetCall
  error : Option GError
deriving DecidableEq, Repr

/-- The execution loop over the pending migrations
(`src/migrations.ts:134-154`): run the procedure, wrap a throw as a
migration error and stop, otherwise record one ledger row and continue. -/
def execPending (snap : Snap) (now : String) :
    SpreadState → List Migration → RunResult
  | st, [] => ⟨st, [], [], none⟩
  | st, m :: rest =>
    match execOps snap st m.up with
    | (st', calls, some e) => ⟨st', [m.version], calls, some (wrapMigErr m e)⟩
    | (st', calls, none) =>
      match appendTabRows st' MIGRATIONS_SHEET [migRow m now] with
      | .error e =>
        ⟨st', [m.version], calls ++ [.appendLedger (migRow m now)], some e⟩
      | .ok st'' =>
        let r := execPending snap now st'' rest
        ⟨r.state, m.version :: r.executed,
         calls ++ [.appendLedger (migRow m now)] ++ r.trace, r.error⟩

/-- The duplicate-version scan (`src/migrations.ts:87-95`): the first
version seen twice, in supply order. -/
def firstDupVersion : List Migration → Option Int :=
  go []
where
  go (seen : List Int) : List Migration → Option Int
    | [] => none
    | m :: rest => if m.version ∈ seen then some m.version else go (m.version :: seen) rest

/-- The comparison `(a, b) => a.version - b.version` as the ordering it
induces. -/
def migLE (a b : Migration) : Prop := a.version ≤ b.version

instance : DecidableRel migLE :=
  fun a b => inferInstanceAs (Decidable (a.version ≤ b.version))

instance : IsTotal Migration migLE := ⟨fun a b => le_total a.version b.version⟩

instance : IsTrans Migration migLE := ⟨fun _ _ _ h h' => le_trans h h'⟩

/-- The ascending stable sort `[...migrations].sort((a, b) => a.version - b.version)`. -/
def sortMigs (migrations : List Migration) : List Migration :=
  List.insertionSort migLE migrations

/-- The applied-version set parsed from the ledger rows
(`src/migrations.ts:119-124`): `Number(row[0])`, skipping `NaN`. -/
def appliedVersions (rows : List Row) : List Int :=
  rows.filterMap (fun r => jsToNumberOpt (r.get? 0))

/-- The ensure-ledger stage (`src/migrations.ts:100-116`): fetch the
metadata, add the ledger sheet when no tab carries the reserved title,
and build the `sheetIdMap` snapshot (refreshed after a creation). -/
def ensureLedger (st : SpreadState) : SpreadState × Snap × List NetCall :=
  if st.tabs.any (fun t => t.title = MIGRATIONS_SHEET) then
    (st, st.tabs, [.metadata])
  else
    let st' := addTab st MIGRATIONS_SHEET
    (st', st'.tabs, [.metadata, .structural [.addSheetReq MIGRATIONS_SHEET], .metadata])

/-- `runMigrations` (`src/migrations.ts:82-155`). -/
def runMigrations (st : SpreadState) (now : String) (migrations : List Migration) :
    RunResult :=
  match firstDupVersion migrations with
  | some v =>
    ⟨st, [], [],
     some (schemaError ("Migrations have duplicate version number: " ++ toString v))⟩
  | none =>
    let sorted := sortMigs migrations
    let (st₁, snap, tr₁) := ensureLedger st
    match readTabRows st₁ MIGRATIONS_SHEET with
    | .error e => ⟨st₁, [], tr₁ ++ [.readLedger], some e⟩
    | .ok rows =>
      let applied := appliedVersions rows
      let pending := sorted.filter (fun m => ¬ m.version ∈ applied)
      if pending.isEmpty then ⟨st₁, [], tr₁ ++ [.readLedger], none⟩
      else
        let r := execPending snap now st₁ pending
        ⟨r.state, r.executed, tr₁ ++ [.readLedger] ++ r.trace, r.error⟩

/-! ## Concrete fixtures

Test fixtures in the style of the repository's own test suite: small
hand-written `SheetSchema` values with positional `parseRow`/`toRow`. -/

/-- Fixture parser: two columns `id`, `name`. -/
def fxParse (row : Row) (_ : Nat) : Option Rcd :=
  match row with
  | a :: b :: _ => some [("id", a), ("name", b)]
  | _ => none

def fxToRow (r : Rcd) : Row :=
  [(getF r "id").getD .null, (getF r "name").getD .null]

/-- A two-column table with primary key `id` and no validator. -/
def fxSchema : Schema :=
  { sheetName := "T", headers := ["id", "name"], primaryKey := some "id",
    parseRow := fxParse, toRow := fxToRow }

/-- The validator `defineModel` generates for a required `name` column. -/
def fxValidate (e : Rcd) : Option GError :=
  match getF e "name" with
  | some .null =>
    some (validationError "Validation failed: Required field \"name\" is missing or null"
      [{ field := "name", message := "Required field \"name\" is missing or null",
         value := some .null }])
  | none =>
    some (validationError "Validation failed: Required field \"name\" is missing or null"
      [{ field := "name", message := "Required field \"name\" is missing or null" }])
  | some _ => none

/-- `fxSchema` with the generated required-`name` validator attached. -/
def fxSchemaV : Schema := { fxSchema with validate := some fxValidate }

/-- `fxSchema` without a primary-key column. -/
def fxSchemaNoPk : Schema := { fxSchema with primaryKey := none }

/-- A store holding table `T` with its header row and one record
`(id: "a", name: "x")`. -/
def fxStore : Store := [("T", [[.str "id", .str "name"], [.str "a", .str "x"]])]

/-- Parent fixture `P(id PK)`. -/
def pSchema : Schema :=
  { sheetName := "P", headers := ["id"], primaryKey := some "id",
    parseRow := fun row _ =>
      match row with
      | a :: _ => some [("id", a)]
      | _ => none,
    toRow := fun r => [(getF r "id").getD .null] }

/-- A table registered under the model key `id` — the same key as the
parent's primary-key column. -/
def cSchema : Schema :=
  { sheetName := "C", headers := ["cid"], primaryKey := some "cid",
    parseRow := fun row _ =>
      match row with
      | a :: _ => some [("cid", a)]
      | _ => none,
    toRow := fun r => [(getF r "cid").getD .null] }

/-- Child fixture `Q(qid PK, pid → P.id)`. -/
def qSchema : Schema :=
  { sheetName := "Q", headers := ["qid", "pid"], primaryKey := some "qid",
    relations := [⟨"pid", "P", "id"⟩],
    parseRow := fun row _ =>
      match row with
      | a :: b :: _ => some [("qid", a), ("pid", b)]
      | _ => none,
    toRow := fun r => [(getF r "qid").getD .null, (getF r "pid").getD .null] }

def c4Schemas : Schemas := [("P", pSchema), ("id", cSchema), ("Q", qSchema)]

/-- Parent `p1`; table `C` empty; one child `c1` referencing `p1`. -/
def c4Store : Store :=
  [("P", [[.str "id"], [.str "p1"]]),
   ("C", [[.str "cid"]]),
   ("Q", [[.str "qid", .str "pid"], [.str "c1", .str "p1"]])]

/-- Migration fixtures. -/
def fxM1 : Migration := ⟨1, "first", []⟩

def fxM2 : Migration := ⟨2, "second", []⟩

def fxMFail : Migration := ⟨3, "boom", [.fail "kaboom"]⟩

/-- A procedure that creates a sheet and immediately alters it. -/
def fxMSelf : Migration := ⟨1, "m", [.createSheet "X", .addColumn "X" "c" none]⟩

/-- A procedure that renames the ledger sheet away and recreates it. -/
def fxMRen : Migration :=
  ⟨2, "ren", [.renameSheet MIGRATIONS_SHEET "X", .createSheet MIGRATIONS_SHEET]⟩

/-- A one-tab spreadsheet with no ledger sheet. -/
def fxSpread : SpreadState := ⟨[⟨0, "Sheet1", []⟩]⟩

/-! ## Association-list and store lemmas -/

theorem getF_cons (p : String × Value) (r : Rcd) (k : String) :
    getF (p :: r) k = if p.1 = k then some p.2 else getF r k := by
  by_cases h : p.1 = k <;> simp [getF, List.find?_cons, h]

theorem getF_append (l₁ l₂ : Rcd) (k : String) :
    getF (l₁ ++ l₂) k = (getF l₁ k).or (getF l₂ k) := by
  induction l₁ with
  | nil => simp [getF]
  | cons p rest ih =>
    by_cases h : p.1 = k <;> simp [getF_cons, h, ih]

theorem getF_map_update (old changes : Rcd) (k : String) :
    getF (old.map (fun p => (p.1, (getF changes p.1).getD p.2))) k =
      (getF old k).map (fun v => (getF changes k).getD v) := by
  induction old with
  | nil => simp [getF]
  | cons p rest ih =>
    by_cases h : p.1 = k
    · subst h; simp [getF_cons]
    · simp [getF_cons, h, ih]

theorem getF_filter_of_none (old changes : Rcd) (k : String)
    (h : getF old k = none) :
    getF (changes.filter (fun p => getF old p.1 = none)) k = getF changes k := by
  induction changes with
  | nil => simp
  | cons q rest ih =>
    by_cases hq : q.1 = k
    · subst hq; simp [List.filter_cons, h, getF_cons]
    · by_cases hkeep : getF old q.1 = none <;>
        simp [List.filter_cons, hkeep, getF_cons, hq, ih]

theorem getF_filter_of_some (old changes : Rcd) (k : String) (v : Value)
    (h : getF old k = some v) :
    getF (changes.filter (fun p => getF old p.1 = none)) k = none := by
  induction changes with
  | nil => simp [getF]
  | cons q rest ih =>
    by_cases hq : q.1 = k
    · subst hq; simp [List.filter_cons, h, ih]
    · by_cases hkeep : getF old q.1 = none <;>
        simp [List.filter_cons, hkeep, getF_cons, hq, ih]

/-- The field-wise description of the spread merge: a field present in
`changes` takes its value from `changes`, every other field keeps the
value of `old`. -/
theorem getF_mergeRcd (old changes : Rcd) (k : String) :
    getF (mergeRcd old changes) k = (getF changes k).or (getF old k) := by
  unfold mergeRcd
  rw [getF_append, getF_map_update]
  cases h : getF old k with
  | none =>
    rw [getF_filter_of_none old changes k h]
    simp
  | some v =>
    rw [getF_filter_of_some old changes k v h]
    cases hc : getF changes k <;> simp [Option.or]

theorem grid_setGrid_self (s : Store) (n : String) (g : List Row) :
    (s.setGrid n g).grid n = g := by
  induction s with
  | nil => simp [Store.setGrid, Store.grid, List.find?_cons]
  | cons p rest ih =>
    by_cases h : p.1 = n <;> simp [Store.setGrid, Store.grid, List.find?_cons, h] at *
    · exact ih

theorem setGrid_setGrid (s : Store) (n : String) (g g' : List Row) :
    (s.setGrid n g).setGrid n g' = s.setGrid n g' := by
  induction s with
  | nil => simp [Store.setGrid]
  | cons p rest ih =>
    by_cases h : p.1 = n <;> simp [Store.setGrid, h, ih]

/-! ## C10 — operations on tables without a primary key -/

/-- C10: on a table whose schema has no primary-key column, `findById`
returns `null` issuing no transport call, `delete` succeeds issuing no
transport call and leaving the store untouched, and `update` fails with
a validation-kind error (after its initial table read) for every id. -/
theorem no_pk_semantics (schemas : Schemas) (schema : Schema)
    (skipFk : Bool) (id : Value) (changes : Rcd) (store : Store)
    (hpk : schema.primaryKey = none) :
    findById schema id store = ⟨store, [], .ok none⟩ ∧
    del schema id store = ⟨store, [], .ok ()⟩ ∧
    update schemas schema skipFk id changes store =
      ⟨store, [.readData schema.sheetName],
       .error (validationError "Cannot update without a primary key" [])⟩ ∧
    (validationError "Cannot update without a primary key" []).kind =
      .VALIDATION_ERROR := by
  refine ⟨?_, ?_, ?_, rfl⟩ <;> simp [findById, del, update, hpk]

/-- Witness for C10 at a concrete no-primary-key table. -/
theorem no_pk_semantics_witness :
    fxSchemaNoPk.primaryKey = none ∧
    findById fxSchemaNoPk (.str "a") fxStore = ⟨fxStore, [], .ok none⟩ ∧
    del fxSchemaNoPk (.str "a") fxStore = ⟨fxStore, [], .ok ()⟩ ∧
    (update [] fxSchemaNoPk false (.str "a") [("name", .str "z")] fxStore).result =
      .error (validationError "Cannot update without a primary key" []) := by
  have h := no_pk_semantics [] fxSchemaNoPk false (.str "a")
    [("name", .str "z")] fxStore rfl
  exact ⟨rfl, h.1, h.2.1, by rw [h.2.2.1]⟩

/-! ## C1 — duplicate primary key on `create` -/

/-- C1 (amended): on a table with a primary-key column, when the
defaulted record passes the schema-validation step and its primary-key
value strictly equals that of some record already in the table, `create`
throws a validation-kind error whose single issue names the primary-key
field, and issues no transport call beyond the duplicate-check read —
in particular it appends no row and leaves the store unchanged. -/
theorem create_duplicate_pk_rejected (schemas : Schemas) (schema : Schema)
    (skipFk : Bool) (record : Rcd) (store : Store) (pk : String)
    (hpk : schema.primaryKey = some pk)
    (hval : validStep schema (applyDefaults schema record) = none)
    (hdup : (readAllRaw schema store).any
      (fun e => getF e pk = getF (applyDefaults schema record) pk) = true) :
    create schemas schema skipFk record store =
      ⟨store, [.readData schema.sheetName],
       .error (validationError
         ("Duplicate primary key: " ++
           optToString (getF (applyDefaults schema record) pk))
         [{ field := pk, message := "Duplicate primary key",
            value := getF (applyDefaults schema record) pk }])⟩ ∧
    (validationError
         ("Duplicate primary key: " ++
           optToString (getF (applyDefaults schema record) pk))
         [{ field := pk, message := "Duplicate primary key",
            value := getF (applyDefaults schema record) pk }]).issues.map
      (·.field) = [pk] := by
  have hd : dupStage schema store (applyDefaults schema record) =
      ([.readData schema.sheetName],
       some (validationError
         ("Duplicate primary key: " ++
           optToString (getF (applyDefaults schema record) pk))
         [{ field := pk, message := "Duplicate primary key",
            value := getF (applyDefaults schema record) pk }])) := by
    simp [dupStage, hpk, dupCheck, hdup]
  refine ⟨?_, by simp [validationError]⟩
  simp [create, hval, hd]

/-- Witness for C1's amended theorem: creating a second record with the
already-present key `"a"` on the fixture table. -/
theorem create_duplicate_pk_rejected_witness :
    validStep fxSchema
        (applyDefaults fxSchema [("id", .str "a"), ("name", .str "y")]) = none ∧
    (readAllRaw fxSchema fxStore).any
      (fun e => getF e "id" =
        getF (applyDefaults fxSchema [("id", .str "a"), ("name", .str "y")]) "id") =
      true ∧
    create [] fxSchema false [("id", .str "a"), ("name", .str "y")] fxStore =
      ⟨fxStore, [.readData "T"],
       .error (validationError "Duplicate primary key: a"
         [{ field := "id", message := "Duplicate primary key",
            value := some (.str "a") }])⟩ := by
  have h := create_duplicate_pk_rejected [] fxSchema false
    [("id", .str "a"), ("name", .str "y")] fxStore "id" rfl rfl (by decide)
  exact ⟨rfl, by decide, h.1⟩

/-- C1 as frozen is violated: on a schema whose validation step rejects
the record, a `create` whose primary-key value duplicates an existing
record's key still fails, but the issue list names the offending
required field, not the primary-key field. -/
theorem create_duplicate_pk_counterexample :
    fxSchemaV.primaryKey = some "id" ∧
    (readAllRaw fxSchemaV fxStore).any
      (fun e => getF e "id" =
        getF (applyDefaults fxSchemaV [("id", .str "a"), ("name", .null)]) "id") =
      true ∧
    (create [] fxSchemaV false [("id", .str "a"), ("name", .null)] fxStore).result =
      .error (validationError
        "Validation failed: Required field \"name\" is missing or null"
        [{ field := "name",
           message := "Required field \"name\" is missing or null",
           value := some .null }]) ∧
    ((validationError
        "Validation failed: Required field \"name\" is missing or null"
        [{ field := "name",
           message := "Required field \"name\" is missing or null",
           value := some .null }]).issues.map (·.field)).contains "id" = false := by
  exact ⟨rfl, by decide, rfl, by decide⟩

/-- Serialised records parse back to themselves, row by row, whenever
the schema round-trips each of them. -/
theorem parseRows_map_toRow (schema : Schema) (rs : List Rcd)
    (h : ∀ r ∈ rs, ∀ i, schema.parseRow (schema.toRow r) i = some r) :
    ∀ i, parseRows schema i (rs.map schema.toRow) = rs := by
  induction rs with
  | nil => intro i; rfl
  | cons r rest ih =>
    intro i
    have hr := h r (by simp) i
    simp only [List.map_cons, parseRows, hr]
    exact congrArg (r :: ·) (ih (fun x hx j => h x (by simp [hx]) j) (i + 1))

/-- After a full rewrite, the remnant of the cleared grid beyond the
written values is empty: the write starts at row 1 and always covers at
least the header row, while the clear left at most the header row. -/
theorem rewrite_tail_nil (g : List Row) (values : List Row)
    (hv : 1 ≤ values.length) : (g.take 1).drop values.length = [] :=
  List.drop_eq_nil_of_le (le_trans (List.length_take_le 1 g) hv)

/-! ## C2 — `update` merges and rewrites in place -/

/-- C2: a successful `update(id, changes)` on a table with a primary key
returns the prior record with exactly the fields of `changes`
overwritten and every other field unchanged, and rewrites the table —
clear, then one write of the header followed by every record — with all
records in their original relative order and the merged record replacing
the old one in place. -/
theorem update_merge_rewrite (schemas : Schemas) (schema : Schema)
    (skipFk : Bool) (id : Value) (changes : Rcd) (store : Store)
    (pk : String) (i : Nat) (r : Rcd)
    (hpk : schema.primaryKey = some pk)
    (hfind : (readAllRaw schema store).findIdx?
      (fun rec => getF rec pk = some id) = some i)
    (hok : (update schemas schema skipFk id changes store).result = .ok r) :
    r = mergeRcd ((readAllRaw schema store).getD i []) changes ∧
    (∀ k, getF r k =
      (getF changes k).or (getF ((readAllRaw schema store).getD i []) k)) ∧
    (update schemas schema skipFk id changes store).store =
      store.setGrid schema.sheetName
        (headerRow schema :: ((readAllRaw schema store).set i r).map schema.toRow) ∧
    ∃ fkTrace, (update schemas schema skipFk id changes store).trace =
      .readData schema.sheetName :: fkTrace ++
        [.clearData schema.sheetName,
         .write schema.sheetName
           (headerRow schema :: ((readAllRaw schema store).set i r).map schema.toRow)
           false] := by
  have hv : validStep schema
      (mergeRcd ((readAllRaw schema store).getD i []) changes) = none := by
    cases hv : validStep schema
        (mergeRcd ((readAllRaw schema store).getD i []) changes) with
    | none => rfl
    | some e =>
      simp only [update, hpk, hfind, hv] at hok
      exact Except.noConfusion hok
  rcases hfk : fkStage schemas store skipFk
      (mergeRcd ((readAllRaw schema store).getD i []) changes)
      (some (changes.map (·.1))) schema.relations with ⟨fkTrace, oe⟩
  cases oe with
  | some e =>
    simp only [update, hpk, hfind, hv, hfk] at hok
    exact Except.noConfusion hok
  | none =>
    have h0 : (List.take 1 (store.grid schema.sheetName)).drop
        (headerRow schema :: ((readAllRaw schema store).set i
          (mergeRcd ((readAllRaw schema store).getD i []) changes)).map
            schema.toRow).length = [] :=
      rewrite_tail_nil _ _ (by simp)
    have hr : r = mergeRcd ((readAllRaw schema store).getD i []) changes := by
      simp only [update, hpk, hfind, hv, hfk, Except.ok.injEq] at hok
      exact hok.symm
    subst hr
    refine ⟨rfl, fun k => getF_mergeRcd _ _ k, ?_, ⟨fkTrace, ?_⟩⟩ <;>
      simp only [update, hpk, hfind, hv, hfk, h0, List.append_nil]

/-- Witness for C2: updating `name` of record `"a"` on the fixture
table. -/
theorem update_merge_rewrite_witness :
    (readAllRaw fxSchema fxStore).findIdx?
      (fun rec => getF rec "id" = some (.str "a")) = some 0 ∧
    (update [] fxSchema false (.str "a") [("name", .str "z")] fxStore).result =
      .ok [("id", .str "a"), ("name", .str "z")] ∧
    [("id", .str "a"), ("name", .str "z")] =
      mergeRcd ((readAllRaw fxSchema fxStore).getD 0 []) [("name", .str "z")] ∧
    (update [] fxSchema false (.str "a") [("name", .str "z")] fxStore).store =
      fxStore.setGrid "T"
        (headerRow fxSchema ::
          ((readAllRaw fxSchema fxStore).set 0
            [("id", .str "a"), ("name", .str "z")]).map fxSchema.toRow) := by
  have h := update_merge_rewrite [] fxSchema false (.str "a") [("name", .str "z")]
    fxStore "id" 0 [("id", .str "a"), ("name", .str "z")] rfl (by decide) rfl
  exact ⟨by decide, rfl, h.1, h.2.2.1⟩

/-! ## C8 — `delete` is a silent no-op on a missing id and idempotent -/

/-- C8: on a table with a primary-key column whose records round-trip
through the schema's serialiser, `delete id` never raises an error; when
no record has primary key `id` it leaves the table's record set
unchanged; and deleting the same id twice leaves the store exactly as
after the first deletion. -/
theorem delete_noop_idempotent (schema : Schema) (id : Value) (store : Store)
    (pk : String)
    (hpk : schema.primaryKey = some pk)
    (hrt : ∀ r ∈ readAllRaw schema store, ∀ i,
      schema.parseRow (schema.toRow r) i = some r) :
    (del schema id store).result = .ok () ∧
    ((∀ r ∈ readAllRaw schema store, ¬ getF r pk = some id) →
      readAllRaw schema (del schema id store).store = readAllRaw schema store) ∧
    (del schema id (del schema id store).store).store =
      (del schema id store).store := by
  have hfiltmem : ∀ r ∈ (readAllRaw schema store).filter
      (fun rec => !decide (getF rec pk = some id)), r ∈ readAllRaw schema store :=
    fun r hr => (List.mem_filter.mp hr).1
  have hstore₁ : (del schema id store).store =
      store.setGrid schema.sheetName
        (headerRow schema ::
          ((readAllRaw schema store).filter
            (fun rec => !decide (getF rec pk = some id))).map schema.toRow) := by
    simp only [del, hpk]
    rw [rewrite_tail_nil _ _ (by simp)]
    simp
  refine ⟨by simp [del, hpk], ?_, ?_⟩
  · intro hno
    have hfilt : (readAllRaw schema store).filter
        (fun rec => !decide (getF rec pk = some id)) = readAllRaw schema store :=
      List.filter_eq_self.mpr (fun r hr => by simpa using hno r hr)
    rw [hstore₁, hfilt, readAllRaw, grid_setGrid_self]
    simpa using parseRows_map_toRow schema (readAllRaw schema store) hrt 0
  · have hread₁ : readAllRaw schema (del schema id store).store =
        (readAllRaw schema store).filter (fun rec => !decide (getF rec pk = some id)) := by
      rw [hstore₁, readAllRaw, grid_setGrid_self]
      simpa using parseRows_map_toRow schema _
        (fun r hr i => hrt r (hfiltmem r hr) i) 0
    have hfilt₂ : ((readAllRaw schema store).filter
          (fun rec => !decide (getF rec pk = some id))).filter
          (fun rec => !decide (getF rec pk = some id)) =
        (readAllRaw schema store).filter (fun rec => !decide (getF rec pk = some id)) :=
      List.filter_eq_self.mpr (fun r hr => (List.mem_filter.mp hr).2)
    set store₁ := (del schema id store).store with hs₁
    have hstep : (del schema id store₁).store =
        store₁.setGrid schema.sheetName
          (headerRow schema ::
            (((readAllRaw schema store).filter
              (fun rec => !decide (getF rec pk = some id))).map schema.toRow)) := by
      simp only [del, hpk, hread₁, hfilt₂]
      rw [rewrite_tail_nil _ _ (by simp)]
      simp
    rw [hstep, hstore₁, setGrid_setGrid]

/-- Witness for C8: deleting the absent id `"zz"` from the fixture
table, twice. -/
theorem delete_noop_idempotent_witness :
    fxSchema.primaryKey = some "id" ∧
    (del fxSchema (.str "zz") fxStore).result = .ok () ∧
    readAllRaw fxSchema (del fxSchema (.str "zz") fxStore).store =
      readAllRaw fxSchema fxStore ∧
    (del fxSchema (.str "zz") (del fxSchema (.str "zz") fxStore).store).store =
      (del fxSchema (.str "zz") fxStore).store := by
  have hsing : readAllRaw fxSchema fxStore =
      [[("id", Value.str "a"), ("name", Value.str "x")]] := rfl
  have hrt : ∀ r ∈ readAllRaw fxSchema fxStore, ∀ i,
      fxSchema.parseRow (fxSchema.toRow r) i = some r := by
    intro r hr i
    rw [hsing, List.mem_singleton] at hr
    subst hr
    rfl
  have h := delete_noop_idempotent fxSchema (.str "zz") fxStore "id" rfl hrt
  exact ⟨rfl, h.1, h.2.1 (by decide), h.2.2⟩

/-! ## C3 — foreign-key validation on write -/

/-- The error of the relation checker is the error of the first failing
relation: relations that pass contribute nothing. -/
theorem validateFK_error_append (schemas : Schemas) (store : Store) (record : Rcd)
    (changedFields : Option (List String)) (pre rest : List RelationDefinition)
    (h_pre : ∀ rl ∈ pre, (fkCheckRel schemas store record changedFields rl).2 = none) :
    (validateForeignKeys schemas store record changedFields (pre ++ rest)).2 =
      (validateForeignKeys schemas store record changedFields rest).2 := by
  induction pre with
  | nil => rfl
  | cons rl pre' ih =>
    rcases hc : fkCheckRel schemas store record changedFields rl with ⟨tr, oe⟩
    have : oe = none := by
      have := h_pre rl (by simp)
      rw [hc] at this
      exact this
    subst this
    simp only [List.cons_append, validateForeignKeys, hc]
    exact ih (fun x hx => h_pre x (by simp [hx]))

/-- C3 (amended): a relation whose source value is present and non-null,
not excluded by the changed-field set, and dangling — no row of the
target table holds a string-equal value in the resolved target column —
makes the FK validator fail with a validation-kind error whose issue
names the source field, and whose message names the target model, the
target field and the offending value, provided every relation checked
before it passes.  The error propagates out of `create` (when the
schema-validation and duplicate-key stages pass) and out of `update`
(when the record is found and re-validation passes), in both cases
before any write.  The check is skipped — no target read, no error —
under `skipFkValidation`, for a relation whose source field is not among
the changed fields of an update, and for a null or absent source
value. -/
theorem fk_validation_spec (schemas : Schemas) (schema : Schema) (store : Store)
    (record : Rcd) (changedFields : Option (List String))
    (pre post : List RelationDefinition) (rel : RelationDefinition) (fv : Value)
    (targetSchema : Schema) (pkIndex : Nat)
    (h_rels : schema.relations = pre ++ rel :: post)
    (h_pre : ∀ rl ∈ pre, (fkCheckRel schemas store record changedFields rl).2 = none)
    (h_app : fkApplicable changedFields rel.sourceField = true)
    (h_fv : getF record rel.sourceField = some fv)
    (h_nn : fv ≠ .null)
    (h_ts : lookupSchema schemas rel.targetModel = some targetSchema)
    (h_idx : targetSchema.headers.findIdx?
      (fun h => h = targetSchema.primaryKey.getD rel.targetField) = some pkIndex)
    (h_nomatch : ((store.grid targetSchema.sheetName).drop 1).any
      (fun row =>
        match row.get? pkIndex with
        | none => false
        | some cell =>
          decide (cell ≠ .null) && (valToString cell == valToString fv)) = false) :
    (validateForeignKeys schemas store record changedFields schema.relations).2 =
      some (fkFailure rel fv) ∧
    (fkFailure rel fv).kind = .VALIDATION_ERROR ∧
    (fkFailure rel fv).issues =
      [{ field := rel.sourceField,
         message := "Referenced " ++ rel.targetModel ++ "." ++ rel.targetField ++
           " \"" ++ valToString fv ++ "\" not found",
         value := some fv }] ∧
    (∀ tr₀, changedFields = none →
      applyDefaults schema record = record →
      validStep schema record = none →
      dupStage schema store record = (tr₀, none) →
      create schemas schema false record store =
        ⟨store,
         tr₀ ++ (validateForeignKeys schemas store record none schema.relations).1,
         .error (fkFailure rel fv)⟩) ∧
    (∀ (pk : String) (i : Nat) (id : Value) (changes : Rcd),
      schema.primaryKey = some pk →
      changedFields = some (changes.map (·.1)) →
      (readAllRaw schema store).findIdx? (fun rc => getF rc pk = some id) = some i →
      mergeRcd ((readAllRaw schema store).getD i []) changes = record →
      validStep schema record = none →
      update schemas schema false id changes store =
        ⟨store,
         .readData schema.sheetName ::
           (validateForeignKeys schemas store record changedFields schema.relations).1,
         .error (fkFailure rel fv)⟩) ∧
    (fkStage schemas store true record changedFields schema.relations = ([], none)) ∧
    (∀ (rl : RelationDefinition) (cf : List String),
      cf.contains rl.sourceField = false →
      fkCheckRel schemas store record (some cf) rl = ([], none)) ∧
    (∀ rl : RelationDefinition,
      getF record rl.sourceField = none ∨ getF record rl.sourceField = some .null →
      fkCheckRel schemas store record changedFields rl = ([], none)) := by
  have h_one : fkCheckRel schemas store record changedFields rel =
      ([.readData targetSchema.sheetName], some (fkFailure rel fv)) := by
    simp only [fkCheckRel, h_app, h_fv, h_ts, h_idx, h_nomatch]
    simp [h_nn]
  have h_err : (validateForeignKeys schemas store record changedFields
      schema.relations).2 = some (fkFailure rel fv) := by
    rw [h_rels, validateFK_error_append schemas store record changedFields pre
      (rel :: post) h_pre]
    simp [validateForeignKeys, h_one]
  have h_pair : validateForeignKeys schemas store record changedFields
      schema.relations =
      ((validateForeignKeys schemas store record changedFields schema.relations).1,
       some (fkFailure rel fv)) := by
    rw [← h_err]
  refine ⟨h_err, rfl, rfl, ?_, ?_, rfl, ?_, ?_⟩
  · intro tr₀ hcf hdef hval hdup
    subst hcf
    have hfk : fkStage schemas store false record none schema.relations =
        ((validateForeignKeys schemas store record none schema.relations).1,
         some (fkFailure rel fv)) := by
      simpa [fkStage] using h_pair
    simp only [create, hdef, hval, hdup, hfk]
  · intro pk i id changes hpk hcf hfind hmerge hval
    subst hcf
    have hfk : fkStage schemas store false record (some (changes.map (·.1)))
        schema.relations =
        ((validateForeignKeys schemas store record (some (changes.map (·.1)))
          schema.relations).1,
         some (fkFailure rel fv)) := by
      simpa [fkStage] using h_pair
    simp only [update, hpk, hfind, hmerge, hval, hfk]
  · intro rl cf hcf
    have happ : fkApplicable (some cf) rl.sourceField = false := by
      simpa [fkApplicable] using hcf
    simp [fkCheckRel, happ]
  · intro rl hrl
    rcases hrl with h | h <;>
      · by_cases hc : fkApplicable changedFields rl.sourceField = false <;>
          simp [fkCheckRel, hc, h]

/-- C3 as frozen is violated: a `create` whose record both duplicates an
existing primary key and holds a dangling foreign-key value fails with
the duplicate-key issue — the issue list names the primary-key field
`qid`, not the relation-source field `pid`, the target table or the
offending value `"ghost"`. -/
theorem fk_validation_counterexample :
    qSchema.relations = [⟨"pid", "P", "id"⟩] ∧
    getF [("qid", .str "c1"), ("pid", .str "ghost")] "pid" = some (.str "ghost") ∧
    ((c4Store.grid "P").drop 1).any
      (fun row =>
        match row.get? 0 with
        | none => false
        | some cell =>
          decide (cell ≠ .null) &&
            (valToString cell == valToString (.str "ghost"))) = false ∧
    (create c4Schemas qSchema false
      [("qid", .str "c1"), ("pid", .str "ghost")] c4Store).result =
      .error (validationError "Duplicate primary key: c1"
        [{ field := "qid", message := "Duplicate primary key",
           value := some (.str "c1") }]) ∧
    ((validationError "Duplicate primary key: c1"
        [{ field := "qid", message := "Duplicate primary key",
           value := some (.str "c1") }]).issues.map (·.field)).contains "pid" =
      false := by
  exact ⟨rfl, rfl, by decide, rfl, by decide⟩

/-- Witness for C3's amended theorem: creating a child whose `pid`
references the absent parent `"ghost"`. -/
theorem fk_validation_spec_witness :
    (validateForeignKeys c4Schemas c4Store
      [("qid", .str "c9"), ("pid", .str "ghost")] none qSchema.relations).2 =
      some (fkFailure ⟨"pid", "P", "id"⟩ (.str "ghost")) ∧
    (fkFailure ⟨"pid", "P", "id"⟩ (.str "ghost")).kind = .VALIDATION_ERROR ∧
    create c4Schemas qSchema false
      [("qid", .str "c9"), ("pid", .str "ghost")] c4Store =
      ⟨c4Store,
       [SheetOp.readData "Q"] ++
         (validateForeignKeys c4Schemas c4Store
           [("qid", .str "c9"), ("pid", .str "ghost")] none qSchema.relations).1,
       .error (fkFailure ⟨"pid", "P", "id"⟩ (.str "ghost"))⟩ := by
  have h := fk_validation_spec c4Schemas qSchema c4Store
    [("qid", .str "c9"), ("pid", .str "ghost")] none [] []
    ⟨"pid", "P", "id"⟩ (.str "ghost") pSchema 0
    rfl (by simp) rfl rfl (by decide) rfl (by decide) (by decide)
  exact ⟨h.1, h.2.1, h.2.2.2.1 [SheetOp.readData "Q"] rfl rfl rfl (by decide)⟩

/-! ## C4 — eager loading -/

/-- The attachment a parent record should receive for a requested key,
stated against the parent's own primary-key value: exactly the related
records (in their parsed input order) whose relation-source column is
string-equal to it, and an empty list when the related table declares no
relation back to the primary model. -/
def attachSpec (schemas : Schemas) (schema : Schema) (pk : String) (store : Store)
    (parent : Rcd) (relatedKey : String) : List Rcd :=
  match lookupSchema schemas relatedKey with
  | none => []
  | some relatedSchema =>
    match findRelationToModel schemas relatedSchema schema with
    | some rel =>
      (parseRows relatedSchema 0 ((store.grid relatedSchema.sheetName).drop 1)).filter
        (fun child =>
          optToString (getF child rel.sourceField) = optToString (getF parent pk))
    | none => []

theorem getEF_cons (p : String × EValue) (r : ERcd) (k : String) :
    getEF (p :: r) k = if p.1 = k then some p.2 else getEF r k := by
  by_cases h : p.1 = k <;> simp [getEF, List.find?_cons, h]

theorem getEF_setEF (p : ERcd) (k f : String) (v : EValue) :
    getEF (setEF p k v) f = if k = f then some v else getEF p f := by
  induction p with
  | nil => by_cases h : k = f <;> simp [setEF, getEF_cons, h, getEF]
  | cons q rest ih =>
    by_cases hq : q.1 = k
    · subst hq
      by_cases h : q.1 = f <;> simp [setEF, getEF_cons, h]
    · by_cases h : q.1 = f
      · have hfk : ¬ f = k := fun hfk => hq (h.trans hfk)
        have hkf : ¬ k = f := fun hkf => hfk hkf.symm
        simp [setEF, hq, getEF_cons, h, hfk, hkf]
      · simp [setEF, hq, getEF_cons, h, ih]

theorem getEF_toERcd (r : Rcd) (f : String) :
    getEF (toERcd r) f = (getF r f).map EValue.scalar := by
  induction r with
  | nil => simp [toERcd, getEF, getF]
  | cons p rest ih =>
    by_cases h : p.1 = f <;> simp [toERcd, getEF_cons, getF_cons, h] at *
    · exact ih

theorem eOptToString_map_scalar (o : Option Value) :
    eOptToString (o.map EValue.scalar) = optToString o := by
  cases o <;> rfl

theorem getD_map_of_lt {α β : Type} (l : List α) (g : α → β) (d : β) (d' : α)
    (i : Nat) (hi : i < l.length) : (l.map g).getD i d = g (l.getD i d') := by
  have h : l[i]? = some l[i] := List.getElem?_eq_getElem hi
  have h' : l.getD i d' = l[i] := by simp [List.getD, h]
  simp [List.getD, List.getElem?_map, h, h']

theorem getD_map_of_ge {α β : Type} (l : List α) (g : α → β) (d : β)
    (i : Nat) (hi : l.length ≤ i) : (l.map g).getD i d = d := by
  have h : l[i]? = none := List.getElem?_eq_none hi
  simp [List.getD, List.getElem?_map, h]

theorem getD_of_ge {α : Type} (l : List α) (d : α) (i : Nat)
    (hi : l.length ≤ i) : l.getD i d = d := by
  have h : l[i]? = none := List.getElem?_eq_none hi
  simp [List.getD, h]

theorem attachOne_length (schemas : Schemas) (schema : Schema) (pk : String)
    (store : Store) (parents : List ERcd) (k : String) :
    (attachOne schemas schema pk store parents k).length = parents.length := by
  unfold attachOne
  cases lookupSchema schemas k <;> simp

theorem foldAttach_length (schemas : Schemas) (schema : Schema) (pk : String)
    (store : Store) (ks : List String) :
    ∀ parents : List ERcd,
      (ks.foldl (attachOne schemas schema pk store) parents).length =
        parents.length := by
  induction ks with
  | nil => intro parents; rfl
  | cons k rest ih =>
    intro parents
    simp only [List.foldl_cons]
    rw [ih (attachOne schemas schema pk store parents k), attachOne_length]

/-- A field never named by the processed keys is untouched by the
attachment passes. -/
theorem foldAttach_keep (schemas : Schemas) (schema : Schema) (pk : String)
    (store : Store) (ks : List String) :
    ∀ (parents : List ERcd) (f : String), ¬ f ∈ ks → ∀ i,
      getEF ((ks.foldl (attachOne schemas schema pk store) parents).getD i []) f =
        getEF (parents.getD i []) f := by
  induction ks with
  | nil => intro parents f _ i; rfl
  | cons k rest ih =>
    intro parents f hf i
    have hfk : ¬ k = f := fun h => hf (by simp [h])
    have hfr : ¬ f ∈ rest := fun h => hf (by simp [h])
    simp only [List.foldl_cons]
    rw [ih (attachOne schemas schema pk store parents k) f hfr i]
    unfold attachOne
    cases lookupSchema schemas k with
    | none => rfl
    | some rs =>
      rcases Nat.lt_or_ge i parents.length with hi | hi
      · rw [getD_map_of_lt parents _ [] [] i hi, getEF_setEF]
        simp [hfk]
      · rw [getD_map_of_ge parents _ [] i hi, getD_of_ge parents [] i hi]

/-- The attachment passes preserve the parents' primary-key field and
set, for every processed registered key, exactly the specified array,
computed against the original record's primary-key value. -/
theorem foldAttach_set (schemas : Schemas) (schema : Schema) (pk : String)
    (store : Store) (records : List Rcd) (ks : List String) :
    ∀ parents : List ERcd, ¬ pk ∈ ks →
      parents.length = records.length →
      (∀ i, getEF (parents.getD i []) pk =
        (getF (records.getD i []) pk).map EValue.scalar) →
      ∀ k ∈ ks, ∀ rs, lookupSchema schemas k = some rs →
        ∀ i, i < records.length →
          getEF ((ks.foldl (attachOne schemas schema pk store) parents).getD i []) k =
            some (.recs (attachSpec schemas schema pk store (records.getD i []) k)) := by
  induction ks with
  | nil => intro _ _ _ _ k hk; exact absurd hk (List.not_mem_nil k)
  | cons k₀ rest ih =>
    intro parents hpk hlen hinv k hk rs hrs i hi
    have hpk₀ : ¬ pk = k₀ := fun h => hpk (by simp [h])
    have hpkr : ¬ pk ∈ rest := fun h => hpk (by simp [h])
    have hi' : i < parents.length := hlen ▸ hi
    have hlen₁ : (attachOne schemas schema pk store parents k₀).length =
        records.length := by rw [attachOne_length]; exact hlen
    have hinv₁ : ∀ j, getEF ((attachOne schemas schema pk store parents k₀).getD j []) pk =
        (getF (records.getD j []) pk).map EValue.scalar := by
      intro j
      unfold attachOne
      cases lookupSchema schemas k₀ with
      | none => exact hinv j
      | some rs₀ =>
        rcases Nat.lt_or_ge j parents.length with hj | hj
        · rw [getD_map_of_lt parents _ [] [] j hj, getEF_setEF,
            if_neg (fun h => hpk₀ h.symm)]
          exact hinv j
        · rw [getD_map_of_ge parents _ [] j hj,
            getD_of_ge records [] j (by omega)]
          rfl
    simp only [List.foldl_cons]
    by_cases hkr : k ∈ rest
    · exact ih (attachOne schemas schema pk store parents k₀) hpkr hlen₁ hinv₁
        k hkr rs hrs i hi
    · have hkk : k = k₀ := by
        rcases List.mem_cons.mp hk with h | h
        · exact h
        · exact absurd h hkr
      subst hkk
      rw [foldAttach_keep schemas schema pk store rest _ k hkr i]
      have hval : eOptToString (getEF (parents.getD i []) pk) =
          optToString (getF (records.getD i []) pk) := by
        rw [hinv i]
        exact eOptToString_map_scalar _
      simp only [attachOne, hrs]
      rw [getD_map_of_lt parents _ [] [] i hi', getEF_setEF, if_pos rfl]
      simp only [attachValue, attachSpec, hrs, hval]
      cases findRelationToModel schemas rs schema <;> rfl

/-- C4 (amended): a `loadRelated` over a primary table with primary-key
column `pk`, with at least one registered requested table and no
requested key equal to `pk`, issues exactly one batched multi-range read
covering all registered requested tables; the result has one record per
primary record, every primary record carries, for each registered
requested key, an attached array holding exactly the related records
whose relation-source column is string-equal to the record's primary-key
value (in the related table's input order, empty — never null or absent
— when nothing matches or no back-relation is declared), and every field
not named by a requested key is the original scalar field. -/
theorem load_related_spec (schemas : Schemas) (schema : Schema)
    (includeKeys : List String) (records : List Rcd) (store : Store) (pk : String)
    (hpk : schema.primaryKey = some pk)
    (hnotin : ¬ pk ∈ includeKeys)
    (hne : includeKeys.filter (fun k => (lookupSchema schemas k).isSome) ≠ []) :
    (loadRelated schemas schema includeKeys records store).2 =
      [.batchGet ((includeKeys.filter
        (fun k => (lookupSchema schemas k).isSome)).filterMap
          (fun k => (lookupSchema schemas k).map (·.sheetName)))] ∧
    (loadRelated schemas schema includeKeys records store).1.length =
      records.length ∧
    (∀ i, i < records.length → ∀ k ∈ includeKeys, ∀ rs,
      lookupSchema schemas k = some rs →
      getEF ((loadRelated schemas schema includeKeys records store).1.getD i []) k =
        some (.recs (attachSpec schemas schema pk store (records.getD i []) k))) ∧
    (∀ i f, ¬ f ∈ includeKeys →
      getEF ((loadRelated schemas schema includeKeys records store).1.getD i []) f =
        (getF (records.getD i []) f).map EValue.scalar) := by
  have hinc : includeKeys.isEmpty = false := by
    cases includeKeys with
    | nil => exact absurd rfl hne
    | cons a l => rfl
  have hrr : ((includeKeys.filter
      (fun k => (lookupSchema schemas k).isSome)).filterMap
        (fun k => (lookupSchema schemas k).map (·.sheetName))).isEmpty = false := by
    rcases hk : includeKeys.filter (fun k => (lookupSchema schemas k).isSome) with
      _ | ⟨k₀, ks⟩
    · exact absurd hk hne
    · have hk₀ : (lookupSchema schemas k₀).isSome := by
        have : k₀ ∈ includeKeys.filter (fun k => (lookupSchema schemas k).isSome) := by
          rw [hk]; simp
        simpa using (List.mem_filter.mp this).2
      rcases hs : lookupSchema schemas k₀ with _ | rs
      · rw [hs] at hk₀; exact absurd hk₀ (by simp)
      · simp [hk, List.filterMap_cons, hs]
  have hL : loadRelated schemas schema includeKeys records store =
      ((includeKeys.filter (fun k => (lookupSchema schemas k).isSome)).foldl
         (attachOne schemas schema pk store) (records.map toERcd),
       [.batchGet ((includeKeys.filter
         (fun k => (lookupSchema schemas k).isSome)).filterMap
           (fun k => (lookupSchema schemas k).map (·.sheetName)))]) := by
    simp only [loadRelated, hinc, hrr, hpk, Bool.false_eq_true, if_false]
  have hinv₀ : ∀ i, getEF ((records.map toERcd).getD i []) pk =
      (getF (records.getD i []) pk).map EValue.scalar := by
    intro i
    rcases Nat.lt_or_ge i records.length with hi | hi
    · rw [show (records.map toERcd).getD i [] = toERcd (records.getD i []) from by
        have h : records[i]? = some records[i] := List.getElem?_eq_getElem hi
        simp [List.getD, List.getElem?_map, h]]
      exact getEF_toERcd _ pk
    · rw [show (records.map toERcd).getD i [] = [] from by
        have h : records[i]? = none := List.getElem?_eq_none hi
        simp [List.getD, List.getElem?_map, h]]
      rw [getD_of_ge records [] i hi]
      rfl
  have hnotin' : ¬ pk ∈ includeKeys.filter
      (fun k => (lookupSchema schemas k).isSome) :=
    fun h => hnotin (List.mem_filter.mp h).1
  refine ⟨by rw [hL], ?_, ?_, ?_⟩
  · rw [hL]
    simp only [foldAttach_length, List.length_map]
  · intro i hi k hk rs hrs
    rw [hL]
    exact foldAttach_set schemas schema pk store records _ (records.map toERcd)
      hnotin' (by simp) hinv₀ k
      (List.mem_filter.mpr ⟨hk, by simp [hrs]⟩) rs hrs i hi
  · intro i f hf
    rw [hL]
    have hf' : ¬ f ∈ includeKeys.filter (fun k => (lookupSchema schemas k).isSome) :=
      fun h => hf (List.mem_filter.mp h).1
    rw [foldAttach_keep schemas schema pk store _ _ f hf' i]
    exact (by
      rcases Nat.lt_or_ge i records.length with hi | hi
      · rw [show (records.map toERcd).getD i [] = toERcd (records.getD i []) from by
          have h : records[i]? = some records[i] := List.getElem?_eq_getElem hi
          simp [List.getD, List.getElem?_map, h]]
        exact getEF_toERcd _ f
      · rw [show (records.map toERcd).getD i [] = [] from by
          have h : records[i]? = none := List.getElem?_eq_none hi
          simp [List.getD, List.getElem?_map, h]]
        rw [getD_of_ge records [] i hi]
        rfl)

/-- Witness for C4's amended theorem: loading parent `P` with
`include \x7bQ\x7d` attaches to `p1` exactly its one child, in input
order. -/
theorem load_related_spec_witness :
    (loadRelated c4Schemas pSchema ["Q"] (readAllRaw pSchema c4Store) c4Store).2 =
      [.batchGet ((["Q"].filter
        (fun k => (lookupSchema c4Schemas k).isSome)).filterMap
          (fun k => (lookupSchema c4Schemas k).map (·.sheetName)))] ∧
    getEF ((loadRelated c4Schemas pSchema ["Q"]
        (readAllRaw pSchema c4Store) c4Store).1.getD 0 []) "Q" =
      some (.recs (attachSpec c4Schemas pSchema "id" c4Store
        ((readAllRaw pSchema c4Store).getD 0 []) "Q")) ∧
    attachSpec c4Schemas pSchema "id" c4Store
        ((readAllRaw pSchema c4Store).getD 0 []) "Q" =
      [[("qid", .str "c1"), ("pid", .str "p1")]] ∧
    (loadRelated c4Schemas pSchema ["Q"]
        (readAllRaw pSchema c4Store) c4Store).1.length =
      (readAllRaw pSchema c4Store).length := by
  have h := load_related_spec c4Schemas pSchema ["Q"] (readAllRaw pSchema c4Store)
    c4Store "id" rfl (by decide) (by decide)
  exact ⟨h.1, h.2.2.1 0 (by decide) "Q" (by simp) qSchema rfl, by decide, h.2.1⟩

/-- C4 as frozen is violated: when one of the requested include keys is
a registered table named like the primary table's primary-key column
(here the model key `id`), the earlier attachment pass overwrites the
parents' primary-key field, and a later requested table (`Q`) gets an
empty attached array even though a child with a matching foreign-key
value exists. -/
theorem load_related_counterexample :
    pSchema.primaryKey = some "id" ∧
    (lookupSchema c4Schemas "id").isSome = true ∧
    attachSpec c4Schemas pSchema "id" c4Store [("id", .str "p1")] "Q" =
      [[("qid", .str "c1"), ("pid", .str "p1")]] ∧
    ((loadRelated c4Schemas pSchema ["id", "Q"]
        (readAllRaw pSchema c4Store) c4Store).1.map (fun p => getEF p "Q")) =
      [some (.recs [])] := by
  exact ⟨rfl, rfl, by decide, by decide⟩

/-! ## C9 — migration-context operations and sheet-id resolution -/

/-- C9 (amended): each of the five migration-context structural
operations resolves the target sheet name to its physical id through the
`sheetIdMap` snapshot taken at the start of the run — not through live
metadata — before issuing the structural change: a resolved name yields
exactly the structural requests carrying the resolved id, an unresolved
name throws a schema-kind error, `createSheet` issues its request
without any resolution, and a sheet created earlier in the same
procedure does **not** resolve (the snapshot is never refreshed), so an
operation targeting it fails. -/
theorem migration_ops_resolution (snap : Snap) (st : SpreadState)
    (n s column newName : String) (afterIndex : Option Nat)
    (columnIndex : Nat) (sid : Int) :
    (execOp snap st (.createSheet n) =
      .ok (addTab st n, [.structural [.addSheetReq n]])) ∧
    (snapResolve snap s = some sid →
      execOp snap st (.addColumn s column afterIndex) =
        .ok (updateTab st sid (fun t => { t with grid :=
              (setCell (insertColAt t.grid (afterIndex.getD 0)) 0
                (afterIndex.getD 0) (.str column)) }),
          [.structural [.insertCols sid (afterIndex.getD 0) (afterIndex.getD 0 + 1),
                        .updateHeaderCell sid (afterIndex.getD 0) column]])) ∧
    (snapResolve snap s = some sid →
      execOp snap st (.removeColumn s columnIndex) =
        .ok (updateTab st sid (fun t => { t with grid := deleteColAt t.grid columnIndex }),
          [.structural [.deleteCols sid columnIndex (columnIndex + 1)]])) ∧
    (snapResolve snap s = some sid →
      execOp snap st (.renameColumn s columnIndex newName) =
        .ok (updateTab st sid (fun t => { t with grid :=
              (setCell t.grid 0 columnIndex (.str newName)) }),
          [.structural [.updateHeaderCell sid columnIndex newName]])) ∧
    (snapResolve snap s = some sid →
      execOp snap st (.renameSheet s newName) =
        .ok (updateTab st sid (fun t => { t with title := newName }),
          [.structural [.renameTab sid newName]])) ∧
    (snapResolve snap s = none →
      execOp snap st (.addColumn s column afterIndex) =
          .error (schemaError ("Sheet \"" ++ s ++ "\" not found in spreadsheet")) ∧
      execOp snap st (.removeColumn s columnIndex) =
          .error (schemaError ("Sheet \"" ++ s ++ "\" not found in spreadsheet")) ∧
      execOp snap st (.renameColumn s columnIndex newName) =
          .error (schemaError ("Sheet \"" ++ s ++ "\" not found in spreadsheet")) ∧
      execOp snap st (.renameSheet s newName) =
          .error (schemaError ("Sheet \"" ++ s ++ "\" not found in spreadsheet"))) ∧
    (snapResolve snap n = none →
      (execOps snap st [.createSheet n, .addColumn n column afterIndex]).2.2 =
        some (schemaError ("Sheet \"" ++ n ++ "\" not found in spreadsheet"))) := by
  refine ⟨rfl, ?_, ?_, ?_, ?_, ?_, ?_⟩
  · intro h; simp [execOp, resolveSheetId, h, Bind.bind, Except.bind]
  · intro h; simp [execOp, resolveSheetId, h, Bind.bind, Except.bind]
  · intro h; simp [execOp, resolveSheetId, h, Bind.bind, Except.bind]
  · intro h; simp [execOp, resolveSheetId, h, Bind.bind, Except.bind]
  · intro h
    refine ⟨?_, ?_, ?_, ?_⟩ <;>
      simp [execOp, resolveSheetId, h, Bind.bind, Except.bind]
  · intro h
    simp [execOps, execOp, resolveSheetId, h, Bind.bind, Except.bind]

/-- Witness for C9's amended theorem at a concrete snapshot. -/
theorem migration_ops_resolution_witness :
    snapResolve fxSpread.tabs "Sheet1" = some 0 ∧
    snapResolve fxSpread.tabs "X" = none ∧
    execOp fxSpread.tabs fxSpread (.removeColumn "Sheet1" 2) =
      .ok (updateTab fxSpread 0 (fun t => { t with grid := deleteColAt t.grid 2 }),
        [.structural [.deleteCols 0 2 3]]) ∧
    execOp fxSpread.tabs fxSpread (.addColumn "X" "c" none) =
      .error (schemaError "Sheet \"X\" not found in spreadsheet") ∧
    (execOps fxSpread.tabs fxSpread [.createSheet "X", .addColumn "X" "c" none]).2.2 =
      some (schemaError "Sheet \"X\" not found in spreadsheet") := by
  have h := migration_ops_resolution fxSpread.tabs fxSpread "X" "Sheet1" "c" "nn"
    none 2 0
  have h' := migration_ops_resolution fxSpread.tabs fxSpread "X" "X" "c" "nn"
    none 2 0
  exact ⟨rfl, rfl, h.2.2.1 rfl, (h'.2.2.2.2.2.1 rfl).1, h'.2.2.2.2.2.2 rfl⟩

/-- C9 as frozen is violated: a migration whose procedure creates sheet
`X` and then adds a column to `X` fails — the resolution goes through
the start-of-run snapshot, so the sheet created earlier in the same run
does not resolve, and the run aborts with a wrapped schema error. -/
theorem migration_live_resolution_counterexample :
    fxMSelf.up = [.createSheet "X", .addColumn "X" "c" none] ∧
    (runMigrations fxSpread "t" [fxMSelf]).error =
      some (migrationError
        "Migration 1 (m) failed: Sheet \"X\" not found in spreadsheet"
        1 "m" "Sheet \"X\" not found in spreadsheet") ∧
    (migrationError
        "Migration 1 (m) failed: Sheet \"X\" not found in spreadsheet"
        1 "m" "Sheet \"X\" not found in spreadsheet").kind = .MIGRATION_ERROR := by
  exact ⟨rfl, by decide, rfl⟩

/-! ## Migration-run machinery: ledger invariants -/

/-- The run-wide invariant about the ledger sheet: the first tab
carrying the reserved title is `⟨L, reserved, g⟩`, tab ids are distinct,
and `L` identifies only that tab. -/
def StInv (st : SpreadState) (L : Int) (g : List Row) : Prop :=
  st.tabs.find? (fun t => t.title = MIGRATIONS_SHEET) =
    some ⟨L, MIGRATIONS_SHEET, g⟩ ∧
  (st.tabs.map (·.id)).Nodup ∧
  ∀ t ∈ st.tabs, t.id = L → t = ⟨L, MIGRATIONS_SHEET, g⟩

/-- What the `sheetIdMap` snapshot knows about the ledger: its ids are
distinct and some entry carries the reserved title with id `L`. -/
def SnapInv (snap : Snap) (L : Int) : Prop :=
  (snap.map (·.id)).Nodup ∧
  ∃ t ∈ snap, t.id = L ∧ t.title = MIGRATIONS_SHEET

theorem le_foldr_max (l : List Int) (x : Int) (hx : x ∈ l) :
    x ≤ l.foldr max 0 := by
  induction l with
  | nil => cases hx
  | cons a rest ih =>
    rcases List.mem_cons.mp hx with h | h
    · subst h; exact le_max_left _ _
    · exact le_trans (ih h) (le_max_right _ _)

theorem freshId_not_mem (st : SpreadState) : ¬ freshId st ∈ st.tabs.map (·.id) := by
  intro h
  have := le_foldr_max (st.tabs.map (·.id)) _ h
  unfold freshId at this
  omega

/-- A non-reserved sheet name never resolves to the ledger tab's id. -/
theorem snapResolve_ne_ledger (snap : Snap) (L : Int) (s : String) (sid : Int)
    (hsnap : SnapInv snap L) (hs : s ≠ MIGRATIONS_SHEET)
    (hres : snapResolve snap s = some sid) : sid ≠ L := by
  intro hEq
  subst hEq
  rcases hsnap with ⟨hnd, t, ht, htid, httl⟩
  unfold snapResolve at hres
  rcases hfind : snap.reverse.find? (fun tb => tb.title = s) with _ | t'
  · rw [hfind] at hres; cases hres
  · rw [hfind] at hres
    have ht' : t' ∈ snap := List.mem_reverse.mp (List.mem_of_find?_eq_some hfind)
    have ht's : t'.title = s := by simpa using List.find?_some hfind
    have hid : t'.id = sid := by simpa using hres
    have : t' = t := List.inj_on_of_nodup_map hnd ht' ht (by rw [hid, htid])
    rw [this, httl] at ht's
    exact hs ht's.symm

/-- The first reserved-titled tab survives an id-targeted map whose
payload preserves ids and never introduces the reserved title. -/
theorem find?_map_pres (L : Int) (g : List Row) (sid : Int)
    (f : SheetTab → SheetTab) (hsid : sid ≠ L)
    (htitle : ∀ t, (f t).title = t.title ∨ (f t).title ≠ MIGRATIONS_SHEET) :
    ∀ tabs : List SheetTab,
      tabs.find? (fun t => t.title = MIGRATIONS_SHEET) =
        some ⟨L, MIGRATIONS_SHEET, g⟩ →
      (∀ t ∈ tabs, t.id = L → t = ⟨L, MIGRATIONS_SHEET, g⟩) →
      (tabs.map (fun t => if t.id = sid then f t else t)).find?
        (fun t => t.title = MIGRATIONS_SHEET) = some ⟨L, MIGRATIONS_SHEET, g⟩ := by
  intro tabs
  induction tabs with
  | nil => intro hfind _; cases hfind
  | cons t₀ rest ih =>
    intro hfind huniq
    by_cases hp : t₀.title = MIGRATIONS_SHEET
    · have h₀ : t₀ = ⟨L, MIGRATIONS_SHEET, g⟩ := by
        rw [List.find?_cons_of_pos _ (by simp [hp])] at hfind
        simpa using hfind
      have hne : ¬ t₀.id = sid := by
        rw [h₀]; exact fun h => hsid (h.symm)
      simp only [List.map_cons, if_neg hne]
      rw [List.find?_cons_of_pos _ (by simp [hp])]
      rw [h₀]
    · rw [List.find?_cons_of_neg _ (by simp [hp])] at hfind
      have hrest := ih hfind (fun t ht => huniq t (by simp [ht]))
      simp only [List.map_cons]
      have hp' : ¬ ((if t₀.id = sid then f t₀ else t₀).title = MIGRATIONS_SHEET) := by
        by_cases h : t₀.id = sid
        · rw [if_pos h]
          rcases htitle t₀ with he | he
          · rw [he]; exact hp
          · exact he
        · simp [h, hp]
      rw [List.find?_cons_of_neg _ (by simpa using hp')]
      exact hrest

/-- `updateTab` at a non-ledger id, with a payload preserving ids and
avoiding the reserved title, preserves the ledger invariant. -/
theorem updateTab_pres (st : SpreadState) (L : Int) (g : List Row) (sid : Int)
    (f : SheetTab → SheetTab) (hst : StInv st L g) (hsid : sid ≠ L)
    (hid : ∀ t, (f t).id = t.id)
    (htitle : ∀ t, (f t).title = t.title ∨ (f t).title ≠ MIGRATIONS_SHEET) :
    StInv (updateTab st sid f) L g := by
  rcases hst with ⟨hfind, hnd, huniq⟩
  have hids : (updateTab st sid f).tabs.map (·.id) = st.tabs.map (·.id) := by
    unfold updateTab
    rw [List.map_map]
    apply List.map_congr_left
    intro t _
    by_cases h : t.id = sid <;> simp [h, hid]
  refine ⟨?_, by rw [hids]; exact hnd, ?_⟩
  · exact find?_map_pres L g sid f hsid htitle st.tabs hfind huniq
  · intro t' ht' hL
    rcases List.mem_map.mp ht' with ⟨t, ht, hEq⟩
    by_cases h : t.id = sid
    · rw [← hEq] at hL
      rw [if_pos h, hid t] at hL
      exact absurd (h.symm.trans hL) hsid
    · rw [← hEq]
      rw [if_neg h]
      exact huniq t ht (by rw [← hEq, if_neg h] at hL; exact hL)

theorem addTab_pres (st : SpreadState) (L : Int) (g : List Row) (n : String)
    (hst : StInv st L g) (_hn : n ≠ MIGRATIONS_SHEET) : StInv (addTab st n) L g := by
  rcases hst with ⟨hfind, hnd, huniq⟩
  have hLmem : L ∈ st.tabs.map (·.id) := by
    have := List.mem_of_find?_eq_some hfind
    exact List.mem_map.mpr ⟨_, this, rfl⟩
  have hfresh : freshId st ≠ L := by
    intro h
    exact freshId_not_mem st (h ▸ hLmem)
  unfold StInv addTab
  dsimp only
  refine ⟨?_, ?_, ?_⟩
  · rw [List.find?_append, hfind]
    rfl
  · rw [List.map_append]
    refine List.Nodup.append hnd (by simp) ?_
    intro a ha hb
    have ha' : a = freshId st := by simpa using hb
    exact freshId_not_mem st (ha' ▸ ha)
  · intro t ht hL
    rcases List.mem_append.mp ht with h | h
    · exact huniq t h hL
    · have : t = ⟨freshId st, n, []⟩ := by simpa using h
      rw [this] at hL
      exact absurd hL hfresh

/-- Appending to the ledger tab's grid keeps the invariant, with the
rows appended. -/
theorem find?_map_ledger (L : Int) (g : List Row) (rows : List Row)
    (f : SheetTab → SheetTab)
    (hf : f ⟨L, MIGRATIONS_SHEET, g⟩ = ⟨L, MIGRATIONS_SHEET, g ++ rows⟩) :
    ∀ tabs : List SheetTab,
      tabs.find? (fun t => t.title = MIGRATIONS_SHEET) =
        some ⟨L, MIGRATIONS_SHEET, g⟩ →
      (∀ t ∈ tabs, t.id = L → t = ⟨L, MIGRATIONS_SHEET, g⟩) →
      (tabs.map (fun t => if t.id = L then f t else t)).find?
        (fun t => t.title = MIGRATIONS_SHEET) =
        some ⟨L, MIGRATIONS_SHEET, g ++ rows⟩ := by
  intro tabs
  induction tabs with
  | nil => intro hfind _; cases hfind
  | cons t₀ rest ih =>
    intro hfind huniq
    by_cases hp : t₀.title = MIGRATIONS_SHEET
    · have h₀ : t₀ = ⟨L, MIGRATIONS_SHEET, g⟩ := by
        rw [List.find?_cons_of_pos _ (by simp [hp])] at hfind
        simpa using hfind
      have hhead : (if t₀.id = L then f t₀ else t₀) =
          ⟨L, MIGRATIONS_SHEET, g ++ rows⟩ := by
        rw [h₀]
        simpa using hf
      simp only [List.map_cons, hhead]
      rw [List.find?_cons_of_pos _ (by simp)]
    · rw [List.find?_cons_of_neg _ (by simp [hp])] at hfind
      have hrest := ih hfind (fun t ht => huniq t (by simp [ht]))
      have hne : ¬ t₀.id = L := fun h => hp (by rw [huniq t₀ (by simp) h])
      simp only [List.map_cons, if_neg hne]
      rw [List.find?_cons_of_neg _ (by simp [hp])]
      exact hrest

theorem appendLedger_inv (st : SpreadState) (L : Int) (g : List Row)
    (rows : List Row) (hst : StInv st L g) :
    appendTabRows st MIGRATIONS_SHEET rows =
      .ok (updateTab st L (fun tb => { tb with grid := tb.grid ++ rows })) ∧
    StInv (updateTab st L (fun tb => { tb with grid := tb.grid ++ rows })) L
      (g ++ rows) := by
  rcases hst with ⟨hfind, hnd, huniq⟩
  constructor
  · unfold appendTabRows
    rw [hfind]
  · have hids : (updateTab st L
        (fun tb => { tb with grid := tb.grid ++ rows })).tabs.map (·.id) =
        st.tabs.map (·.id) := by
      unfold updateTab
      rw [List.map_map]
      apply List.map_congr_left
      intro t _
      by_cases h : t.id = L <;> simp [h]
    refine ⟨?_, by rw [hids]; exact hnd, ?_⟩
    · exact find?_map_ledger L g rows _ rfl st.tabs hfind huniq
    · intro t' ht' hL
      rcases List.mem_map.mp ht' with ⟨t, ht, hEq⟩
      by_cases h : t.id = L
      · rw [← hEq, if_pos h, huniq t ht h]
      · rw [← hEq, if_neg h] at hL ⊢
        exact absurd hL h

theorem readTab_of_inv (st : SpreadState) (L : Int) (g : List Row)
    (hst : StInv st L g) : readTabRows st MIGRATIONS_SHEET = .ok g := by
  unfold readTabRows
  rw [hst.1]

theorem ledgerRows_of_inv (st : SpreadState) (L : Int) (g : List Row)
    (hst : StInv st L g) : ledgerRows st = g := by
  unfold ledgerRows
  rw [hst.1]
  rfl

theorem any_reserved_of_inv (st : SpreadState) (L : Int) (g : List Row)
    (hst : StInv st L g) :
    st.tabs.any (fun t => t.title = MIGRATIONS_SHEET) = true := by
  have := List.mem_of_find?_eq_some hst.1
  exact List.any_eq_true.mpr ⟨_, this, by simp⟩

/-- A safe operation that executes successfully leaves the ledger tab
(and its grid) untouched. -/
theorem execOp_preserves (snap : Snap) (st : SpreadState) (op : MigOp)
    (L : Int) (g : List Row) (st' : SpreadState) (calls : List NetCall)
    (hsnap : SnapInv snap L) (hst : StInv st L g) (hsafe : opSafe op = true)
    (hexec : execOp snap st op = .ok (st', calls)) : StInv st' L g := by
  cases op with
  | createSheet n =>
    have hn : n ≠ MIGRATIONS_SHEET := by simpa [opSafe] using hsafe
    have : st' = addTab st n := by
      simp only [execOp, Except.ok.injEq, Prod.mk.injEq] at hexec
      exact hexec.1.symm
    rw [this]
    exact addTab_pres st L g n hst hn
  | addColumn s column afterIndex =>
    have hs : s ≠ MIGRATIONS_SHEET := by simpa [opSafe] using hsafe
    rcases hres : snapResolve snap s with _ | sid
    · simp [execOp, resolveSheetId, hres, Bind.bind, Except.bind] at hexec
    · simp only [execOp, resolveSheetId, hres, Bind.bind, Except.bind,
        Except.ok.injEq, Prod.mk.injEq] at hexec
      rw [← hexec.1]
      exact updateTab_pres st L g sid _ ⟨hst.1, hst.2.1, hst.2.2⟩
        (snapResolve_ne_ledger snap L s sid hsnap hs hres)
        (fun t => rfl) (fun t => Or.inl rfl)
  | removeColumn s columnIndex =>
    have hs : s ≠ MIGRATIONS_SHEET := by simpa [opSafe] using hsafe
    rcases hres : snapResolve snap s with _ | sid
    · simp [execOp, resolveSheetId, hres, Bind.bind, Except.bind] at hexec
    · simp only [execOp, resolveSheetId, hres, Bind.bind, Except.bind,
        Except.ok.injEq, Prod.mk.injEq] at hexec
      rw [← hexec.1]
      exact updateTab_pres st L g sid _ ⟨hst.1, hst.2.1, hst.2.2⟩
        (snapResolve_ne_ledger snap L s sid hsnap hs hres)
        (fun t => rfl) (fun t => Or.inl rfl)
  | renameColumn s columnIndex newName =>
    have hs : s ≠ MIGRATIONS_SHEET := by simpa [opSafe] using hsafe
    rcases hres : snapResolve snap s with _ | sid
    · simp [execOp, resolveSheetId, hres, Bind.bind, Except.bind] at hexec
    · simp only [execOp, resolveSheetId, hres, Bind.bind, Except.bind,
        Except.ok.injEq, Prod.mk.injEq] at hexec
      rw [← hexec.1]
      exact updateTab_pres st L g sid _ ⟨hst.1, hst.2.1, hst.2.2⟩
        (snapResolve_ne_ledger snap L s sid hsnap hs hres)
        (fun t => rfl) (fun t => Or.inl rfl)
  | renameSheet oldName newName =>
    have hs : oldName ≠ MIGRATIONS_SHEET ∧ newName ≠ MIGRATIONS_SHEET := by
      simpa [opSafe] using hsafe
    rcases hres : snapResolve snap oldName with _ | sid
    · simp [execOp, resolveSheetId, hres, Bind.bind, Except.bind] at hexec
    · simp only [execOp, resolveSheetId, hres, Bind.bind, Except.bind,
        Except.ok.injEq, Prod.mk.injEq] at hexec
      rw [← hexec.1]
      exact updateTab_pres st L g sid _ ⟨hst.1, hst.2.1, hst.2.2⟩
        (snapResolve_ne_ledger snap L oldName sid hsnap hs.1 hres)
        (fun t => rfl) (fun t => Or.inr hs.2)
  | fail msg => simp [execOp] at hexec

theorem execOps_preserves (snap : Snap) (L : Int) (hsnap : SnapInv snap L) :
    ∀ (ops : List MigOp) (st : SpreadState) (g : List Row),
      StInv st L g → (∀ op ∈ ops, opSafe op = true) →
      StInv (execOps snap st ops).1 L g := by
  intro ops
  induction ops with
  | nil => intro st g hst _; exact hst
  | cons op rest ih =>
    intro st g hst hsafe
    rcases hex : execOp snap st op with e | ⟨st', calls⟩
    · simpa [execOps, hex] using hst
    · have hst' := execOp_preserves snap st op L g st' calls hsnap hst
        (hsafe op (by simp)) hex
      simpa [execOps, hex] using
        ih st' g hst' (fun o ho => hsafe o (by simp [ho]))

theorem execOps_error_eq (snap : Snap) :
    ∀ (ops : List MigOp) (st : SpreadState),
      (execOps snap st ops).2.2 = upError snap ops := by
  intro ops
  induction ops with
  | nil => intro st; rfl
  | cons op rest ih =>
    intro st
    cases op with
    | createSheet n => simpa [execOps, execOp, upError] using ih _
    | fail msg => simp [execOps, execOp, upError]
    | addColumn s c a =>
      rcases hres : resolveSheetId snap s with e | sid <;>
        simp [execOps, execOp, upError, hres, Bind.bind, Except.bind, ih]
    | removeColumn s i =>
      rcases hres : resolveSheetId snap s with e | sid <;>
        simp [execOps, execOp, upError, hres, Bind.bind, Except.bind, ih]
    | renameColumn s i nn =>
      rcases hres : resolveSheetId snap s with e | sid <;>
        simp [execOps, execOp, upError, hres, Bind.bind, Except.bind, ih]
    | renameSheet o nn =>
      rcases hres : resolveSheetId snap o with e | sid <;>
        simp [execOps, execOp, upError, hres, Bind.bind, Except.bind, ih]

theorem execOp_no_append (snap : Snap) (st : SpreadState) (op : MigOp)
    (st' : SpreadState) (calls : List NetCall)
    (hexec : execOp snap st op = .ok (st', calls)) :
    ledgerAppends calls = [] := by
  cases op with
  | createSheet n =>
    simp only [execOp, Except.ok.injEq, Prod.mk.injEq] at hexec
    rw [← hexec.2]
    rfl
  | fail msg => simp [execOp] at hexec
  | addColumn s c a =>
    rcases hres : resolveSheetId snap s with e | sid
    · simp [execOp, hres, Bind.bind, Except.bind] at hexec
    · simp only [execOp, hres, Bind.bind, Except.bind, Except.ok.injEq,
        Prod.mk.injEq] at hexec
      rw [← hexec.2]
      rfl
  | removeColumn s i =>
    rcases hres : resolveSheetId snap s with e | sid
    · simp [execOp, hres, Bind.bind, Except.bind] at hexec
    · simp only [execOp, hres, Bind.bind, Except.bind, Except.ok.injEq,
        Prod.mk.injEq] at hexec
      rw [← hexec.2]
      rfl
  | renameColumn s i nn =>
    rcases hres : resolveSheetId snap s with e | sid
    · simp [execOp, hres, Bind.bind, Except.bind] at hexec
    · simp only [execOp, hres, Bind.bind, Except.bind, Except.ok.injEq,
        Prod.mk.injEq] at hexec
      rw [← hexec.2]
      rfl
  | renameSheet o nn =>
    rcases hres : resolveSheetId snap o with e | sid
    · simp [execOp, hres, Bind.bind, Except.bind] at hexec
    · simp only [execOp, hres, Bind.bind, Except.bind, Except.ok.injEq,
        Prod.mk.injEq] at hexec
      rw [← hexec.2]
      rfl

theorem execOps_no_append (snap : Snap) :
    ∀ (ops : List MigOp) (st : SpreadState),
      ledgerAppends (execOps snap st ops).2.1 = [] := by
  intro ops
  induction ops with
  | nil => intro st; rfl
  | cons op rest ih =>
    intro st
    rcases hex : execOp snap st op with e | ⟨st', calls⟩
    · simp [execOps, hex, ledgerAppends]
    · have h₁ := execOp_no_append snap st op st' calls hex
      simp only [execOps, hex]
      show ledgerAppends (calls ++ (execOps snap st' rest).2.1) = []
      unfold ledgerAppends at h₁ ⊢
      rw [List.filterMap_append]
      rw [h₁]
      simpa [ledgerAppends] using ih st'

/-- A run of the pending loop that ends without error executed every
pending procedure in order and appended exactly one ledger row per
migration, in order, to the ledger grid. -/
theorem execPending_ok (snap : Snap) (L : Int) (now : String)
    (hsnap : SnapInv snap L) :
    ∀ (pending : List Migration) (st : SpreadState) (g : List Row),
      StInv st L g →
      (∀ m ∈ pending, ∀ op ∈ m.up, opSafe op = true) →
      (execPending snap now st pending).error = none →
      (execPending snap now st pending).executed = pending.map (·.version) ∧
      StInv (execPending snap now st pending).state L
        (g ++ pending.map (fun m => migRow m now)) := by
  intro pending
  induction pending with
  | nil =>
    intro st g hst _ _
    exact ⟨rfl, by simpa using hst⟩
  | cons m rest ih =>
    intro st g hst hsafe herr
    rcases hex : execOps snap st m.up with ⟨st', calls, oe⟩
    have hst' : StInv st' L g := by
      have := execOps_preserves snap L hsnap m.up st g hst
        (hsafe m (by simp))
      rw [hex] at this
      exact this
    cases oe with
    | some e => simp [execPending, hex] at herr
    | none =>
      rcases appendLedger_inv st' L g [migRow m now] hst' with ⟨happ, hinv''⟩
      have hrec := ih (updateTab st' L
          (fun tb => { tb with grid := tb.grid ++ [migRow m now] }))
        (g ++ [migRow m now]) hinv''
        (fun m' hm' => hsafe m' (by simp [hm']))
        (by simp only [execPending, hex, happ] at herr; simpa using herr)
      simp only [execPending, hex, happ]
      refine ⟨by simpa using hrec.1, ?_⟩
      have := hrec.2
      rwa [List.append_assoc, List.singleton_append] at this

/-- A run of the pending loop whose first failure is migration `m`
(after error-free `ms₁`) aborts with the wrapped migration error,
executed exactly `ms₁` and `m`, appended ledger rows exactly for `ms₁`,
and left the ledger grid extended by exactly those rows. -/
theorem execPending_fail (snap : Snap) (L : Int) (now : String)
    (hsnap : SnapInv snap L) :
    ∀ (ms₁ : List Migration) (m : Migration) (ms₂ : List Migration)
      (st : SpreadState) (g : List Row) (e₀ : GError),
      StInv st L g →
      (∀ mi ∈ ms₁ ++ [m], ∀ op ∈ mi.up, opSafe op = true) →
      (∀ mi ∈ ms₁, upError snap mi.up = none) →
      upError snap m.up = some e₀ →
      (execPending snap now st (ms₁ ++ m :: ms₂)).error =
        some (wrapMigErr m e₀) ∧
      (execPending snap now st (ms₁ ++ m :: ms₂)).executed =
        ms₁.map (·.version) ++ [m.version] ∧
      ledgerAppends (execPending snap now st (ms₁ ++ m :: ms₂)).trace =
        ms₁.map (fun mi => migRow mi now) ∧
      StInv (execPending snap now st (ms₁ ++ m :: ms₂)).state L
        (g ++ ms₁.map (fun mi => migRow mi now)) := by
  intro ms₁
  induction ms₁ with
  | nil =>
    intro m ms₂ st g e₀ hst hsafe _ hfail
    rcases hex : execOps snap st m.up with ⟨st', calls, oe⟩
    have hoe : oe = some e₀ := by
      have := execOps_error_eq snap m.up st
      rw [hex, hfail] at this
      exact this
    subst hoe
    have hst' : StInv st' L g := by
      have := execOps_preserves snap L hsnap m.up st g hst
        (hsafe m (by simp))
      rw [hex] at this
      exact this
    have hnoapp : ledgerAppends calls = [] := by
      have := execOps_no_append snap m.up st
      rw [hex] at this
      exact this
    simp only [List.nil_append, execPending, hex]
    exact ⟨by trivial, by trivial, by simpa using hnoapp, by simpa using hst'⟩
  | cons m₁ rest ih =>
    intro m ms₂ st g e₀ hst hsafe hok hfail
    rcases hex : execOps snap st m₁.up with ⟨st', calls, oe⟩
    have hoe : oe = none := by
      have := execOps_error_eq snap m₁.up st
      rw [hex, hok m₁ (by simp)] at this
      exact this
    subst hoe
    have hst' : StInv st' L g := by
      have := execOps_preserves snap L hsnap m₁.up st g hst
        (hsafe m₁ (by simp))
      rw [hex] at this
      exact this
    have hnoapp : ledgerAppends calls = [] := by
      have := execOps_no_append snap m₁.up st
      rw [hex] at this
      exact this
    rcases appendLedger_inv st' L g [migRow m₁ now] hst' with ⟨happ, hinv''⟩
    have hrec := ih m ms₂ (updateTab st' L
        (fun tb => { tb with grid := tb.grid ++ [migRow m₁ now] }))
      (g ++ [migRow m₁ now]) e₀ hinv''
      (fun mi hmi => hsafe mi (by
        rcases List.mem_append.mp hmi with h | h
        · exact List.mem_append.mpr (Or.inl (by simp [h]))
        · exact List.mem_append.mpr (Or.inr h)))
      (fun mi hmi => hok mi (by simp [hmi])) hfail
    simp only [List.cons_append, execPending, hex, happ]
    refine ⟨hrec.1, by simpa using hrec.2.1, ?_, ?_⟩
    · show ledgerAppends (calls ++ [NetCall.appendLedger (migRow m₁ now)] ++ _) =
        _
      unfold ledgerAppends at hnoapp ⊢
      rw [List.filterMap_append, List.filterMap_append, hnoapp]
      simpa [ledgerAppends] using hrec.2.2.1
    · have := hrec.2.2.2
      rwa [List.append_assoc, List.singleton_append] at this

/-- The ensure-ledger stage establishes the invariants: the returned
state carries a well-identified ledger tab, and the snapshot is exactly
its tab list. -/
theorem ensureLedger_inv (st : SpreadState)
    (hids : (st.tabs.map (·.id)).Nodup) :
    ∃ L g, StInv (ensureLedger st).1 L g ∧
      SnapInv (ensureLedger st).2.1 L ∧
      (ensureLedger st).2.1 = (ensureLedger st).1.tabs := by
  by_cases h : st.tabs.any (fun t => t.title = MIGRATIONS_SHEET) = true
  · have hens : ensureLedger st = (st, st.tabs, [.metadata]) := by
      simp [ensureLedger, h]
    rcases List.any_eq_true.mp h with ⟨t₀, ht₀, hp₀⟩
    have hfind : (st.tabs.find? (fun t => t.title = MIGRATIONS_SHEET)).isSome :=
      List.find?_isSome.mpr ⟨t₀, ht₀, hp₀⟩
    rcases hf : st.tabs.find? (fun t => t.title = MIGRATIONS_SHEET) with _ | tl
    · rw [hf] at hfind; cases hfind
    · have htl : tl.title = MIGRATIONS_SHEET := by
        simpa using List.find?_some hf
      have hmem : tl ∈ st.tabs := List.mem_of_find?_eq_some hf
      have htl' : tl = ⟨tl.id, MIGRATIONS_SHEET, tl.grid⟩ := by
        cases tl
        simp only at htl
        simp [htl]
      refine ⟨tl.id, tl.grid, ⟨?_, ?_, ?_⟩, ?_, ?_⟩
      · rw [hens]
        show st.tabs.find? _ = _
        rw [hf, ← htl']
      · rw [hens]; exact hids
      · intro t ht hid
        rw [hens] at ht
        have ht' : t = tl := List.inj_on_of_nodup_map hids ht hmem hid
        rw [ht']; exact htl'
      · rw [hens]
        exact ⟨hids, tl, hmem, rfl, htl⟩
      · rw [hens]
  · have h' : st.tabs.any (fun t => t.title = MIGRATIONS_SHEET) = false := by
      simpa using h
    have hens : ensureLedger st = (addTab st MIGRATIONS_SHEET,
        (addTab st MIGRATIONS_SHEET).tabs,
        [.metadata, .structural [.addSheetReq MIGRATIONS_SHEET], .metadata]) := by
      simp [ensureLedger, h']
    have hnone : st.tabs.find? (fun t => t.title = MIGRATIONS_SHEET) = none :=
      List.find?_eq_none.mpr (fun t ht => by
        simpa using List.any_eq_false.mp h' t ht)
    have hnd' : ((addTab st MIGRATIONS_SHEET).tabs.map (·.id)).Nodup := by
      show ((st.tabs ++ [(⟨freshId st, MIGRATIONS_SHEET, []⟩ : SheetTab)]).map (·.id)).Nodup
      rw [List.map_append]
      refine List.Nodup.append hids (by simp) ?_
      intro a ha hb
      have ha' : a = freshId st := by simpa using hb
      exact freshId_not_mem st (ha' ▸ ha)
    have hstinv : StInv (addTab st MIGRATIONS_SHEET) (freshId st) [] := by
      refine ⟨?_, hnd', ?_⟩
      · show (st.tabs ++ [(⟨freshId st, MIGRATIONS_SHEET, []⟩ : SheetTab)]).find? _ = _
        rw [List.find?_append, hnone]
        rfl
      · intro t ht hid
        rcases List.mem_append.mp ht with hmem | hmem
        · exact absurd (hid ▸ List.mem_map.mpr ⟨t, hmem, rfl⟩)
            (freshId_not_mem st)
        · simpa using hmem
    refine ⟨freshId st, [], ?_, ?_, ?_⟩
    · rw [hens]; exact hstinv
    · rw [hens]
      exact ⟨hnd', ⟨freshId st, MIGRATIONS_SHEET, []⟩, by simp [addTab], rfl, rfl⟩
    · rw [hens]

/-! ## Duplicate detection and ordering -/

theorem firstDup_go_none_iff (l : List Migration) :
    ∀ seen : List Int,
      firstDupVersion.go seen l = none ↔
        (l.map (·.version)).Nodup ∧ ∀ v ∈ l.map (·.version), ¬ v ∈ seen := by
  induction l with
  | nil => intro seen; simp [firstDupVersion.go]
  | cons m rest ih =>
    intro seen
    by_cases h : m.version ∈ seen
    · simp [firstDupVersion.go, h]
    · simp only [firstDupVersion.go, h, if_neg h, if_false, List.map_cons, List.nodup_cons,
        List.mem_cons]
      rw [ih (m.version :: seen)]
      constructor
      · rintro ⟨hnd, hnotin⟩
        have hns : ∀ v ∈ rest.map (·.version), ¬ v ∈ seen :=
          fun v hv hvs => hnotin v hv (by simp [hvs])
        have hnm : ¬ m.version ∈ rest.map (·.version) :=
          fun hv => hnotin m.version hv (by simp)
        exact ⟨⟨hnm, hnd⟩, by
          intro v hv
          rcases hv with hv | hv
          · rw [hv]; exact h
          · exact hns v hv⟩
      · rintro ⟨⟨hnm, hnd⟩, hall⟩
        refine ⟨hnd, ?_⟩
        intro v hv hvs
        rcases List.mem_cons.mp hvs with hvm | hvs'
        · exact hnm (hvm ▸ hv)
        · exact hall v (Or.inr hv) hvs'

theorem firstDup_none_iff (l : List Migration) :
    firstDupVersion l = none ↔ (l.map (·.version)).Nodup := by
  unfold firstDupVersion
  rw [firstDup_go_none_iff l []]
  simp

theorem sortMigs_sorted (l : List Migration) :
    List.Sorted migLE (sortMigs l) :=
  List.sorted_insertionSort migLE l

theorem sortMigs_perm (l : List Migration) : (sortMigs l).Perm l :=
  List.perm_insertionSort migLE l

/-- Two sorted lists with pairwise-distinct version keys that are
permutations of each other are equal. -/
theorem sorted_nodup_unique :
    ∀ (l₁ l₂ : List Migration), l₁.Perm l₂ → List.Sorted migLE l₁ →
      List.Sorted migLE l₂ → (l₁.map (·.version)).Nodup → l₁ = l₂ := by
  intro l₁
  induction l₁ with
  | nil => intro l₂ hp _ _ _; exact (hp.nil_eq).symm ▸ rfl
  | cons a t₁ ih =>
    intro l₂ hp hs₁ hs₂ hnd
    cases l₂ with
    | nil => exact absurd hp.symm.nil_eq (by simp)
    | cons b t₂ =>
      have hab : a = b := by
        have hbmem : b ∈ a :: t₁ := hp.mem_iff.mpr (by simp)
        have hamem : a ∈ b :: t₂ := hp.mem_iff.mp (by simp)
        have h₁ : a.version ≤ b.version := by
          rcases List.mem_cons.mp hbmem with h | h
          · rw [h]
          · exact (List.rel_of_sorted_cons hs₁) b h
        have h₂ : b.version ≤ a.version := by
          rcases List.mem_cons.mp hamem with h | h
          · rw [h]
          · exact (List.rel_of_sorted_cons hs₂) a h
        have hv : a.version = b.version := le_antisymm h₁ h₂
        rcases List.mem_cons.mp hbmem with h | h
        · exact h.symm
        · exfalso
          have : b.version ∈ t₁.map (·.version) := List.mem_map.mpr ⟨b, h, rfl⟩
          rw [← hv] at this
          exact (List.nodup_cons.mp hnd).1 this
      subst hab
      have hp' : t₁.Perm t₂ := (List.perm_cons a).mp hp
      rw [ih t₂ hp' (List.sorted_cons.mp hs₁).2 (List.sorted_cons.mp hs₂).2
        (List.nodup_cons.mp hnd).2]

theorem sortMigs_eq_of_perm (l l' : List Migration) (hperm : l.Perm l')
    (hnd : (l.map (·.version)).Nodup) : sortMigs l = sortMigs l' :=
  sorted_nodup_unique (sortMigs l) (sortMigs l')
    ((sortMigs_perm l).trans (hperm.trans (sortMigs_perm l').symm))
    (sortMigs_sorted l) (sortMigs_sorted l')
    ((((sortMigs_perm l).map (·.version)).nodup_iff).mpr hnd)

/-- The versions whose procedures a pending loop invoked are an initial
segment of the pending versions. -/
theorem execPending_executed_prefix (snap : Snap) (now : String) :
    ∀ (pending : List Migration) (st : SpreadState), ∃ k,
      (execPending snap now st pending).executed =
        (pending.map (·.version)).take k := by
  intro pending
  induction pending with
  | nil => intro st; exact ⟨0, rfl⟩
  | cons m rest ih =>
    intro st
    rcases hex : execOps snap st m.up with ⟨st', calls, oe⟩
    cases oe with
    | some e => exact ⟨1, by simp [execPending, hex]⟩
    | none =>
      rcases happ : appendTabRows st' MIGRATIONS_SHEET [migRow m now] with e | st''
      · exact ⟨1, by simp [execPending, hex, happ]⟩
      · rcases ih st'' with ⟨k, hk⟩
        exact ⟨k + 1, by simp [execPending, hex, happ, hk]⟩

/-- C5: a migration run with two migrations sharing a version is
rejected with a schema-kind error before any network call (empty trace,
nothing executed, state untouched); otherwise the procedures invoked
form a strictly ascending version sequence, and the whole run is
independent of the order the migrations were supplied in. -/
theorem migration_run_order (st : SpreadState) (now : String)
    (migs migs' : List Migration) :
    (¬ (migs.map (·.version)).Nodup →
      ∃ v : Int, runMigrations st now migs =
        ⟨st, [], [],
         some (schemaError
           ("Migrations have duplicate version number: " ++ toString v))⟩ ∧
        (schemaError
          ("Migrations have duplicate version number: " ++ toString v)).kind =
          .SCHEMA_ERROR) ∧
    ((migs.map (·.version)).Nodup →
      List.Pairwise (· < ·) (runMigrations st now migs).executed) ∧
    ((migs.map (·.version)).Nodup → migs.Perm migs' →
      runMigrations st now migs = runMigrations st now migs') := by
  refine ⟨?_, ?_, ?_⟩
  · intro hdup
    rcases hfd : firstDupVersion migs with _ | v
    · exact absurd ((firstDup_none_iff migs).mp hfd) hdup
    · exact ⟨v, by simp [runMigrations, hfd], rfl⟩
  · intro hnd
    have hfd : firstDupVersion migs = none := (firstDup_none_iff migs).mpr hnd
    have hsorted : List.Pairwise (fun a b : Migration => a.version < b.version)
        (sortMigs migs) := by
      have hle : List.Pairwise migLE (sortMigs migs) := sortMigs_sorted migs
      have hnd' : ((sortMigs migs).map (·.version)).Nodup :=
        (((sortMigs_perm migs).map (·.version)).nodup_iff).mpr hnd
      have hne : List.Pairwise (fun a b : Migration => a.version ≠ b.version)
          (sortMigs migs) := (List.pairwise_map).mp hnd'
      exact (hle.and hne).imp (fun h => lt_of_le_of_ne h.1 h.2)
    rcases hens : ensureLedger st with ⟨st₁, snap, tr₁⟩
    simp only [runMigrations, hfd, hens]
    rcases hread : readTabRows st₁ MIGRATIONS_SHEET with e | rows
    · simp only [hread]; exact List.Pairwise.nil
    · simp only [hread]
      by_cases hpe : ((sortMigs migs).filter
        (fun m => ¬ m.version ∈ appliedVersions rows)).isEmpty = true
      · rw [if_pos hpe]; exact List.Pairwise.nil
      · rw [if_neg hpe]
        dsimp only
        rcases execPending_executed_prefix snap now
          ((sortMigs migs).filter (fun m => ¬ m.version ∈ appliedVersions rows))
          st₁ with ⟨k, hk⟩
        rw [hk]
        have hpf : List.Pairwise (fun a b : Int => a < b)
            (((sortMigs migs).filter
              (fun m => ¬ m.version ∈ appliedVersions rows)).map (·.version)) :=
          (List.pairwise_map).mpr (hsorted.sublist (List.filter_sublist _))
        exact hpf.sublist (List.take_sublist k _)
  · intro hnd hperm
    have hfd : firstDupVersion migs = none := (firstDup_none_iff migs).mpr hnd
    have hnd' : (migs'.map (·.version)).Nodup :=
      ((hperm.map (·.version)).nodup_iff).mp hnd
    have hfd' : firstDupVersion migs' = none := (firstDup_none_iff migs').mpr hnd'
    have hs : sortMigs migs = sortMigs migs' := sortMigs_eq_of_perm migs migs' hperm hnd
    simp only [runMigrations, hfd, hfd', hs]

/-- Witness for C5: a duplicate pair is rejected; `[fxM2, fxM1]` runs in
ascending order and equals the run of `[fxM1, fxM2]`. -/
theorem migration_run_order_witness :
    (¬ (([fxM1, ⟨1, "dup", []⟩] : List Migration).map (·.version)).Nodup) ∧
    (∃ v : Int, runMigrations fxSpread "t1" [fxM1, ⟨1, "dup", []⟩] =
      ⟨fxSpread, [], [],
       some (schemaError
         ("Migrations have duplicate version number: " ++ toString v))⟩ ∧
      (schemaError
        ("Migrations have duplicate version number: " ++ toString v)).kind =
        .SCHEMA_ERROR) ∧
    List.Pairwise (· < ·) (runMigrations fxSpread "t1" [fxM2, fxM1]).executed ∧
    runMigrations fxSpread "t1" [fxM2, fxM1] =
      runMigrations fxSpread "t1" [fxM1, fxM2] := by
  have h₁ := migration_run_order fxSpread "t1" [fxM1, ⟨1, "dup", []⟩] []
  have h₂ := migration_run_order fxSpread "t1" [fxM2, fxM1] [fxM1, fxM2]
  exact ⟨by decide, h₁.1 (by decide), h₂.2.1 (by decide),
    h₂.2.2 (by decide) (List.Perm.swap _ _ _)⟩

/-! ## The failure claim -/

/-- The ensure-ledger stage never appends a ledger row. -/
theorem ensureLedger_no_append (st st₁ : SpreadState) (snap : Snap)
    (tr₁ : List NetCall) (h : ensureLedger st = (st₁, snap, tr₁)) :
    ledgerAppends tr₁ = [] := by
  unfold ensureLedger at h
  by_cases hc : st.tabs.any (fun t => t.title = MIGRATIONS_SHEET) = true
  · rw [if_pos hc] at h
    cases h
    rfl
  · rw [if_neg hc] at h
    cases h
    rfl

theorem appliedVersions_append (r₁ r₂ : List Row) :
    appliedVersions (r₁ ++ r₂) = appliedVersions r₁ ++ appliedVersions r₂ := by
  simp [appliedVersions, List.filterMap_append]

theorem appliedVersions_migRows (ms : List Migration) (now : String) :
    appliedVersions (ms.map (fun mi => migRow mi now)) = ms.map (·.version) := by
  induction ms with
  | nil => rfl
  | cons m rest ih =>
    simp [appliedVersions, migRow, jsToNumberOpt, jsToNumber] at ih ⊢
    exact ih

theorem pending_versions_nodup (migs : List Migration) (p : Migration → Bool)
    (hnd : (migs.map (·.version)).Nodup) :
    (((sortMigs migs).filter p).map (·.version)).Nodup := by
  have h₁ : ((sortMigs migs).map (·.version)).Nodup :=
    (((sortMigs_perm migs).map (·.version)).nodup_iff).mpr hnd
  exact List.Nodup.sublist ((List.filter_sublist _).map _) h₁

/-- C6: when the first failing pending migration is `m` (after the
error-free prefix `ms₁`), the run's error is the migration-kind wrap of
the underlying cause carrying `m`'s version and name, exactly the
prefix and `m` were invoked (no later pending migration runs), exactly
one ledger row per prefix migration was appended — none for `m` — and
`m`'s version is still absent from the final ledger, so a subsequent
run attempts it again. -/
theorem migration_failure_semantics (st : SpreadState) (now : String)
    (migs : List Migration) (st₁ : SpreadState) (snap : Snap)
    (tr₁ : List NetCall) (rows : List Row)
    (ms₁ : List Migration) (m : Migration) (ms₂ : List Migration) (e₀ : GError)
    (h_ids : (st.tabs.map (·.id)).Nodup)
    (h_nd : (migs.map (·.version)).Nodup)
    (h_ens : ensureLedger st = (st₁, snap, tr₁))
    (h_read : readTabRows st₁ MIGRATIONS_SHEET = .ok rows)
    (h_pend : (sortMigs migs).filter
      (fun mi => ¬ mi.version ∈ appliedVersions rows) = ms₁ ++ m :: ms₂)
    (h_safe : ∀ mi ∈ migs, ∀ op ∈ mi.up, opSafe op = true)
    (h_ok₁ : ∀ mi ∈ ms₁, upError snap mi.up = none)
    (h_fail : upError snap m.up = some e₀) :
    (runMigrations st now migs).error = some (wrapMigErr m e₀) ∧
    (wrapMigErr m e₀).kind = .MIGRATION_ERROR ∧
    (wrapMigErr m e₀).migrationVersion = some m.version ∧
    (wrapMigErr m e₀).migrationName = some m.name ∧
    (wrapMigErr m e₀).causeMsg = some e₀.message ∧
    (runMigrations st now migs).executed = ms₁.map (·.version) ++ [m.version] ∧
    ledgerAppends (runMigrations st now migs).trace =
      ms₁.map (fun mi => migRow mi now) ∧
    ¬ m.version ∈ appliedVersions (ledgerRows (runMigrations st now migs).state) := by
  have hfd : firstDupVersion migs = none := (firstDup_none_iff migs).mpr h_nd
  rcases ensureLedger_inv st h_ids with ⟨L, g, hstinv, hsnapinv, hsnapeq⟩
  simp only [h_ens] at hstinv hsnapinv hsnapeq
  have hrows : rows = g := by
    have h := readTab_of_inv st₁ L g hstinv
    rw [h_read] at h
    exact Except.ok.inj h
  subst hrows
  have hsafe' : ∀ mi ∈ ms₁ ++ [m], ∀ op ∈ mi.up, opSafe op = true := by
    intro mi hmi
    have hmem : mi ∈ ms₁ ++ m :: ms₂ := by
      rcases List.mem_append.mp hmi with h | h
      · exact List.mem_append.mpr (Or.inl h)
      · exact List.mem_append.mpr
          (Or.inr (List.mem_cons.mpr (Or.inl (by simpa using h))))
    rw [← h_pend] at hmem
    exact h_safe mi ((sortMigs_perm migs).mem_iff.mp (List.mem_of_mem_filter hmem))
  have hfail' := execPending_fail snap L now hsnapinv ms₁ m ms₂ st₁ rows e₀
    hstinv hsafe' h_ok₁ h_fail
  have hne : (ms₁ ++ m :: ms₂).isEmpty = false := by cases ms₁ <;> rfl
  simp only [runMigrations, hfd, h_ens, h_read, h_pend, hne, Bool.false_eq_true,
    if_false]
  refine ⟨hfail'.1, rfl, rfl, rfl, rfl, hfail'.2.1, ?_, ?_⟩
  · have h₀ : ledgerAppends tr₁ = [] := ensureLedger_no_append st st₁ snap tr₁ h_ens
    show ledgerAppends (tr₁ ++ [NetCall.readLedger] ++ _) = _
    unfold ledgerAppends at h₀ ⊢
    rw [List.filterMap_append, List.filterMap_append, h₀]
    simpa [ledgerAppends] using hfail'.2.2.1
  · rw [ledgerRows_of_inv _ L _ hfail'.2.2.2, appliedVersions_append,
      appliedVersions_migRows]
    intro hmem
    rcases List.mem_append.mp hmem with h | h
    · have hm : m ∈ (sortMigs migs).filter
          (fun mi => ¬ mi.version ∈ appliedVersions rows) := by
        rw [h_pend]; exact List.mem_append.mpr (Or.inr (by simp))
      have := List.of_mem_filter hm
      exact absurd h (by simpa using this)
    · have hpnd := pending_versions_nodup migs
        (fun mi => ¬ mi.version ∈ appliedVersions rows) h_nd
      rw [h_pend, List.map_append] at hpnd
      rcases List.nodup_append.mp hpnd with ⟨_, _, hdisj⟩
      exact hdisj h (by simp)

/-- Witness for C6: against a fresh spreadsheet, `fxM1` succeeds and
`fxMFail` fails, so the run aborts with the wrapped error, executed
exactly `[1, 3]`, and appended a ledger row only for `fxM1`. -/
theorem migration_failure_semantics_witness :
    (runMigrations fxSpread "t1" [fxM1, fxMFail]).error =
      some (wrapMigErr fxMFail ⟨.API_ERROR, "kaboom", [], none, none, none⟩) ∧
    (wrapMigErr fxMFail ⟨.API_ERROR, "kaboom", [], none, none, none⟩).kind =
      .MIGRATION_ERROR ∧
    (wrapMigErr fxMFail ⟨.API_ERROR, "kaboom", [], none, none, none⟩).migrationVersion =
      some fxMFail.version ∧
    (wrapMigErr fxMFail ⟨.API_ERROR, "kaboom", [], none, none, none⟩).migrationName =
      some fxMFail.name ∧
    (wrapMigErr fxMFail ⟨.API_ERROR, "kaboom", [], none, none, none⟩).causeMsg =
      some (GError.message ⟨.API_ERROR, "kaboom", [], none, none, none⟩) ∧
    (runMigrations fxSpread "t1" [fxM1, fxMFail]).executed =
      [fxM1].map (·.version) ++ [fxMFail.version] ∧
    ledgerAppends (runMigrations fxSpread "t1" [fxM1, fxMFail]).trace =
      [fxM1].map (fun mi => migRow mi "t1") ∧
    ¬ fxMFail.version ∈
      appliedVersions (ledgerRows (runMigrations fxSpread "t1" [fxM1, fxMFail]).state) :=
  migration_failure_semantics fxSpread "t1" [fxM1, fxMFail]
    ⟨[⟨0, "Sheet1", []⟩, ⟨1, MIGRATIONS_SHEET, []⟩]⟩
    [⟨0, "Sheet1", []⟩, ⟨1, MIGRATIONS_SHEET, []⟩]
    [.metadata, .structural [.addSheetReq MIGRATIONS_SHEET], .metadata]
    [] [fxM1] fxMFail [] ⟨.API_ERROR, "kaboom", [], none, none, none⟩
    (by decide) (by decide) (by rfl) (by rfl) (by rfl) (by decide)
    (by decide) (by rfl)

/-! ## The rerun claim -/

/-- Against a state whose ledger already records every supplied version,
a run reads the ledger and stops: no procedure executes, nothing is
appended, the state is untouched. -/
theorem rerun_empty (S : SpreadState) (now' : String) (migs : List Migration)
    (L : Int) (g' : List Row) (hfd : firstDupVersion migs = none)
    (hS : StInv S L g')
    (happl : ∀ mi ∈ migs, mi.version ∈ appliedVersions g') :
    runMigrations S now' migs = ⟨S, [], [.metadata, .readLedger], none⟩ := by
  have hany := any_reserved_of_inv S L g' hS
  have hens₂ : ensureLedger S = (S, S.tabs, [.metadata]) := by
    simp [ensureLedger, hany]
  have hread₂ : readTabRows S MIGRATIONS_SHEET = .ok g' := readTab_of_inv S L g' hS
  have hpend₂ : (sortMigs migs).filter
      (fun mi => ¬ mi.version ∈ appliedVersions g') = [] :=
    List.filter_eq_nil_iff.mpr (fun mi hmi => by
      simpa using happl mi ((sortMigs_perm migs).mem_iff.mp hmi))
  simp only [runMigrations, hfd, hens₂, hread₂, hpend₂]
  rfl

/-- C7 (amended): provided every supplied procedure leaves the reserved
ledger sheet alone and the first run succeeds, a second run of the same
migration set is a silent no-op: it returns the first run's state
untouched (same ledger, same structure), executes zero procedures,
appends zero ledger rows, and reports no error. -/
theorem migration_idempotent_rerun (st : SpreadState) (now now' : String)
    (migs : List Migration)
    (h_ids : (st.tabs.map (·.id)).Nodup)
    (h_nd : (migs.map (·.version)).Nodup)
    (h_safe : ∀ mi ∈ migs, ∀ op ∈ mi.up, opSafe op = true)
    (h_ok : (runMigrations st now migs).error = none) :
    runMigrations (runMigrations st now migs).state now' migs =
      ⟨(runMigrations st now migs).state, [], [.metadata, .readLedger], none⟩ := by
  have hfd : firstDupVersion migs = none := (firstDup_none_iff migs).mpr h_nd
  rcases hens : ensureLedger st with ⟨st₁, snap, tr₁⟩
  rcases ensureLedger_inv st h_ids with ⟨L, g, hstinv, hsnapinv, hsnapeq⟩
  simp only [hens] at hstinv hsnapinv hsnapeq
  have hread : readTabRows st₁ MIGRATIONS_SHEET = .ok g := readTab_of_inv st₁ L g hstinv
  set pending : List Migration := (sortMigs migs).filter
    (fun mi => ¬ mi.version ∈ appliedVersions g) with hpdef
  by_cases hpe : pending.isEmpty = true
  · have hrun : runMigrations st now migs =
        ⟨st₁, [], tr₁ ++ [NetCall.readLedger], none⟩ := by
      simp only [runMigrations, hfd, hens, hread, ← hpdef]
      rw [if_pos hpe]
    have hnil : pending = [] := by
      cases hp : pending with
      | nil => rfl
      | cons a t => rw [hp] at hpe; cases hpe
    have happl : ∀ mi ∈ migs, mi.version ∈ appliedVersions g := by
      intro mi hmi
      have hmi' : mi ∈ sortMigs migs := (sortMigs_perm migs).mem_iff.mpr hmi
      have := List.filter_eq_nil_iff.mp (hpdef ▸ hnil) mi hmi'
      simpa using this
    rw [hrun]
    exact rerun_empty st₁ now' migs L g hfd hstinv happl
  · have hne : pending.isEmpty = false := by
      cases hp : pending.isEmpty with
      | false => rfl
      | true => exact absurd hp hpe
    have hrun : runMigrations st now migs =
        ⟨(execPending snap now st₁ pending).state,
         (execPending snap now st₁ pending).executed,
         tr₁ ++ [NetCall.readLedger] ++ (execPending snap now st₁ pending).trace,
         (execPending snap now st₁ pending).error⟩ := by
      simp only [runMigrations, hfd, hens, hread, ← hpdef, hne, Bool.false_eq_true,
        if_false]
    have herr : (execPending snap now st₁ pending).error = none := by
      rw [hrun] at h_ok
      exact h_ok
    have hsafep : ∀ mi ∈ pending, ∀ op ∈ mi.up, opSafe op = true := by
      intro mi hmi
      rw [hpdef] at hmi
      exact h_safe mi ((sortMigs_perm migs).mem_iff.mp (List.mem_of_mem_filter hmi))
    have hok' := execPending_ok snap L now hsnapinv pending st₁ g hstinv hsafep herr
    rw [hrun]
    dsimp only
    refine rerun_empty _ now' migs L (g ++ pending.map (fun mi => migRow mi now))
      hfd hok'.2 ?_
    intro mi hmi
    rw [appliedVersions_append, appliedVersions_migRows]
    by_cases hin : mi.version ∈ appliedVersions g
    · exact List.mem_append.mpr (Or.inl hin)
    · have hmi' : mi ∈ pending := by
        rw [hpdef]
        exact List.mem_filter.mpr
          ⟨(sortMigs_perm migs).mem_iff.mpr hmi, by simpa using hin⟩
      exact List.mem_append.mpr (Or.inr (List.mem_map.mpr ⟨mi, hmi', rfl⟩))

/-- Witness for C7: running `[fxM1, fxM2]` a second time against the
state the first run produced is a silent no-op. -/
theorem migration_idempotent_rerun_witness :
    runMigrations (runMigrations fxSpread "t1" [fxM1, fxM2]).state "t2"
        [fxM1, fxM2] =
      ⟨(runMigrations fxSpread "t1" [fxM1, fxM2]).state, [],
       [.metadata, .readLedger], none⟩ :=
  migration_idempotent_rerun fxSpread "t1" "t2" [fxM1, fxM2]
    (by decide) (by decide) (by decide) (by decide)

/-- Counterexample to C7 as frozen: a procedure that renames the
reserved ledger sheet away and recreates it makes the first run
succeed, yet the second run re-executes version 1 and changes the
state, so rerunning is not a no-op without the reservation hypothesis. -/
theorem migration_rerun_counterexample :
    (runMigrations fxSpread "t1" [fxM1, fxMRen]).error = none ∧
    (runMigrations (runMigrations fxSpread "t1" [fxM1, fxMRen]).state "t2"
        [fxM1, fxMRen]).executed = [1] ∧
    (runMigrations (runMigrations fxSpread "t1" [fxM1, fxMRen]).state "t2"
        [fxM1, fxMRen]).state ≠
      (runMigrations fxSpread "t1" [fxM1, fxMRen]).state := by
  exact ⟨by decide, by decide, by decide⟩

end Gdb
